import Mathlib

/-!
# Verification of the dtn7 ns-3 Bundle-Protocol core

Shallow embedding of the C++ sources of the dtn7 module (Bundle Protocol v7
for ns-3): endpoint identifiers, DTN time, the CBOR codec, CRC primitives,
primary and canonical blocks, bundles, the in-memory bundle store, the
spray-and-wait copy-count logic, the routing-engine descriptor bookkeeping,
and the fragmentation manager.  Every definition mirrors a function of the
C++ sources (the file and function are named in each doc comment); theorems
at the end settle the specification claims C1 .. C10.
-/

namespace Dtn7

/-! ## Endpoint identifiers (endpoint.cc) -/

/-- `EndpointID` (endpoint.h): scheme, scheme-specific part and the full URI
string.  `operator==` and `operator<` in the source compare `m_uri` only. -/
structure EndpointID where
  scheme : String
  ssp : String
  uri : String
deriving Repr, DecidableEq

/-- `EndpointID::operator==` (endpoint.cc): URI string equality. -/
def eidEq (a b : EndpointID) : Bool := a.uri == b.uri

/-- The `dtn:none` sentinel produced by `EndpointID`'s default constructor and
by every parsing-failure branch of `EndpointID::EndpointID(const std::string&)`. -/
def eidNone : EndpointID := ⟨"dtn", "none", "dtn:none"⟩

/-- `EndpointID::ParseDtn` (endpoint.cc): the regex
`^dtn:(//)?([^/]+)(/.*)?$` applied to the full URI.  After `dtn:` and an
optional `//`, there must be at least one character and the first of the
remaining characters must not be `/`. -/
def parseDtnOk (uri : String) : Bool :=
  if uri.startsWith "dtn:" then
    let r := (uri.drop 4)
    let r2 := if r.startsWith "//" then r.drop 2 else r
    match r2.data with
    | [] => false
    | c :: _ => c != '/'
  else false

/-- `EndpointID::ParseIpn` (endpoint.cc): the regex `^ipn:(\d+)\.(\d+)$`:
digits, a single dot, digits. -/
def parseIpnOk (uri : String) : Bool :=
  if uri.startsWith "ipn:" then
    let r := (uri.drop 4).data
    let a := r.takeWhile (fun c => c != '.')
    let rest := r.drop a.length
    match rest with
    | [] => false
    | _ :: b =>
        decide (a ≠ []) && a.all Char.isDigit && decide (b ≠ []) && b.all Char.isDigit
  else false

/-- `EndpointID::EndpointID(const std::string& eid)` (endpoint.cc): split the
URI at the first `:`; validate by scheme; every failure falls back to
`dtn:none`. -/
def mkEndpointID (eid : String) : EndpointID :=
  if eid = "" then eidNone
  else
    let cs := eid.data
    let schemeChars := cs.takeWhile (fun c => c != ':')
    if schemeChars.length = cs.length then eidNone
    else
      let scheme := String.mk schemeChars
      let ssp := String.mk (cs.drop (schemeChars.length + 1))
      if scheme = "dtn" then
        if parseDtnOk eid then ⟨scheme, ssp, eid⟩ else eidNone
      else if scheme = "ipn" then
        if parseIpnOk eid then ⟨scheme, ssp, eid⟩ else eidNone
      else eidNone

/-! ## DTN time (dtn-time.cc, appended to part_012) -/

/-- `DtnTime` (dtn-time.h): seconds and nanoseconds since the DTN epoch.
`operator==` compares both fields. -/
structure DtnTime where
  seconds : Nat
  nanoseconds : Nat
deriving Repr, DecidableEq

/-- ns-3 `Time` is modelled as its count of nanoseconds. -/
abbrev TimeNS := Nat

/-- `DtnTime::ToTime` (dtn-time.cc): `Seconds(s) + NanoSeconds(ns)`. -/
def DtnTime.toTime (t : DtnTime) : TimeNS :=
  t.seconds * 1000000000 + t.nanoseconds

/-- ns-3 `MilliSeconds(x)` as nanoseconds. -/
def millisecondsToTime (ms : Nat) : TimeNS := ms * 1000000

/-- ns-3 `Time::GetMilliSeconds`. -/
def timeGetMilliSeconds (t : TimeNS) : Nat := t / 1000000

/-! ## CRC primitives (crc.cc, part_013) -/

/-- One iteration of the inner bit loop of `CalculateCRC16` (crc.cc lines
17-27): left shift, conditionally XORing the polynomial `0x1021`, truncated
to 16 bits as the C++ `uint16_t` arithmetic does. -/
def crc16Bit (c : Nat) : Nat :=
  if c &&& 0x8000 ≠ 0 then ((c <<< 1) ^^^ 0x1021) &&& 0xFFFF
  else (c <<< 1) &&& 0xFFFF

/-- `CalculateCRC16` (crc.cc lines 7-31): CRC-16/CCITT-FALSE, initial value
`0xFFFF`, no reflection, no final XOR. -/
def calculateCRC16 (data : List Nat) : Nat :=
  data.foldl
    (fun crc b =>
      (List.range 8).foldl (fun c _ => crc16Bit c) (crc ^^^ (b <<< 8)))
    0xFFFF

/-- One iteration of the inner bit loop of `CalculateCRC32` (crc.cc lines
43-53): right shift, conditionally XORing the constant `0x1EDC6F41` that the
source uses. -/
def crc32Bit (c : Nat) : Nat :=
  if c &&& 1 = 1 then (c >>> 1) ^^^ 0x1EDC6F41
  else c >>> 1

/-- `CalculateCRC32` (crc.cc lines 33-57) exactly as the source computes it:
initial value `0xFFFFFFFF`, per byte XOR the byte in then run eight
right-shift rounds XORing `0x1EDC6F41`, finally complement (`~crc`, i.e.
XOR with `0xFFFFFFFF`). -/
def calculateCRC32 (data : List Nat) : Nat :=
  (data.foldl
    (fun crc b =>
      (List.range 8).foldl (fun c _ => crc32Bit c) (crc ^^^ b))
    0xFFFFFFFF) ^^^ 0xFFFFFFFF

/-- One bit round of the reference CRC-32/Castagnoli: right shift,
conditionally XORing the reflected polynomial `0x82F63B78`. -/
def crc32cRefBit (c : Nat) : Nat :=
  if c &&& 1 = 1 then (c >>> 1) ^^^ 0x82F63B78
  else c >>> 1

/-- Reference CRC-32/Castagnoli, following the spec's words (claim C3):
polynomial `0x1EDC6F41` in reflected form `0x82F63B78`, initial value
`0xFFFFFFFF`, input and output reflected (realised by the right-shifting
loop with the reflected polynomial), final XOR `0xFFFFFFFF`. -/
def crc32CastagnoliRef (data : List Nat) : Nat :=
  (data.foldl
    (fun crc b =>
      (List.range 8).foldl (fun c _ => crc32cRefBit c) (crc ^^^ b))
    0xFFFFFFFF) ^^^ 0xFFFFFFFF

/-- CRC type codes (block-type-codes.h): `NO_CRC = 0`, `CRC_16 = 1`,
`CRC_32 = 2`.  `PrimaryBlock::FromCbor` casts arbitrary decoded integers to
`CRCType`, so the model keeps the underlying integer. -/
abbrev CRCType := Nat

def noCRC : CRCType := 0
def crcType16 : CRCType := 1
def crcType32 : CRCType := 2

/-- `CalculateCRC` (crc.cc lines 59-89): dispatch on the CRC type, returning
the big-endian CRC bytes (2 for CRC-16, 4 for CRC-32, none otherwise). -/
def calculateCRCBytes (type : CRCType) (data : List Nat) : List Nat :=
  if type = crcType16 then
    let c := calculateCRC16 data
    [(c >>> 8) &&& 0xFF, c &&& 0xFF]
  else if type = crcType32 then
    let c := calculateCRC32 data
    [(c >>> 24) &&& 0xFF, (c >>> 16) &&& 0xFF, (c >>> 8) &&& 0xFF, c &&& 0xFF]
  else []

/-- `VerifyCRC` (crc.cc lines 91-116): recompute and compare bytewise;
`NO_CRC` always verifies. -/
def verifyCRC (type : CRCType) (data : List Nat) (crc : List Nat) : Bool :=
  if type = noCRC then true
  else calculateCRCBytes type data == crc

/-! ## CBOR codec (cbor.h and its implementation in part_014)

The ns-3 `Buffer` is modelled as a list of byte values.  `Cbor::Encode`
starts every encoding with `buffer.AddAtStart(1024)` (1024 zero bytes) and
then writes through iterators obtained by `buffer.Begin()`, i.e. always at
position 0; the composite cases (array, map, tag) encode their members into
temporary buffers that are discarded, so only the header reaches the output
(the source comments acknowledge this: "Note: In a real implementation,
this needs proper buffer management").  `Cbor::Decode` handles only the
integer major types 0 and 1 and returns `nullopt` for everything else
("This is a simplified placeholder"). -/

/-- CBOR value (cbor.h `Cbor::CborValue`): a variant over unsigned integer,
(negative-)signed integer, byte string, text string, array, map, tag,
simple value, and the invalid state of the default constructor. -/
inductive CborValue where
  | uint (v : Nat)
  | nint (v : Int)
  | bytes (bs : List Nat)
  | text (s : String)
  | arr (items : List CborValue)
  | map (pairs : List (CborValue × CborValue))
  | tag (t : Nat) (v : CborValue)
  | simple (sv : Nat)
  | invalid
deriving Repr

/-- `Cbor::CborValue::IsArray`. -/
def CborValue.isArray : CborValue → Bool
  | .arr _ => true
  | _ => false

/-- `Cbor::CborValue::GetArray` (returns an empty array for other types). -/
def CborValue.getArray : CborValue → List CborValue
  | .arr xs => xs
  | _ => []

/-- `Cbor::CborValue::GetUnsignedInteger` (returns 0 for other types). -/
def CborValue.getUnsignedInteger : CborValue → Nat
  | .uint v => v
  | _ => 0

/-- `Cbor::CborValue::IsByteString`. -/
def CborValue.isByteString : CborValue → Bool
  | .bytes _ => true
  | _ => false

/-- `Cbor::CborValue::GetByteString` (returns an empty string for other types). -/
def CborValue.getByteString : CborValue → List Nat
  | .bytes bs => bs
  | _ => []

/-- `Cbor::CborValue::IsTextString`. -/
def CborValue.isTextString : CborValue → Bool
  | .text _ => true
  | _ => false

/-- `Cbor::CborValue::GetTextString` (returns an empty string for other types). -/
def CborValue.getTextString : CborValue → String
  | .text s => s
  | _ => ""

/-- An ns-3 `Buffer` as its byte contents. -/
abbrev ByteBuffer := List Nat

/-- `Buffer::AddAtStart(n)` on a fresh buffer: `n` zero-initialised bytes. -/
def zerosBuffer (n : Nat) : ByteBuffer := List.replicate n 0

/-- An iterator write of `src` starting at position `p` of `dst` (in every
call site of the codec the write fits inside the 1024-byte buffer). -/
def overlayAt (p : Nat) (src dst : ByteBuffer) : ByteBuffer :=
  dst.take p ++ src ++ dst.drop (p + src.length)

/-- `Cbor::EncodeHeader`: `(majorType << 5) | (additionalInfo & 0x1F)`. -/
def encodeHeader (major ai : Nat) : Nat := (major <<< 5) ||| (ai &&& 0x1F)

/-- The byte sequence written by `Cbor::EncodeUnsigned` (part_014 lines
728-757): header byte plus a big-endian 1/2/4/8-byte value depending on
magnitude. -/
def encodeUnsignedBytes (major v : Nat) : List Nat :=
  if v ≤ 23 then [encodeHeader major v]
  else if v ≤ 0xFF then [encodeHeader major 24, v]
  else if v ≤ 0xFFFF then [encodeHeader major 25, (v >>> 8) &&& 0xFF, v &&& 0xFF]
  else if v ≤ 0xFFFFFFFF then
    [encodeHeader major 26,
     (v >>> 24) &&& 0xFF, (v >>> 16) &&& 0xFF, (v >>> 8) &&& 0xFF, v &&& 0xFF]
  else
    [encodeHeader major 27,
     (v >>> 56) &&& 0xFF, (v >>> 48) &&& 0xFF, (v >>> 40) &&& 0xFF,
     (v >>> 32) &&& 0xFF, (v >>> 24) &&& 0xFF, (v >>> 16) &&& 0xFF,
     (v >>> 8) &&& 0xFF, v &&& 0xFF]

/-- The C++ two's-complement `uint64_t` image of an `int64_t` expression. -/
def uint64OfInt (i : Int) : Nat := (i % (2 ^ 64 : Int)).toNat

/-- The gcc behaviour of `static_cast<int64_t>` on a `uint64_t`. -/
def int64OfUInt64 (v : Nat) : Int :=
  if v < 2 ^ 63 then (v : Int) else (v : Int) - 2 ^ 64

/-- `Cbor::Encode` (part_014 lines 576-668).  Every case starts from the
1024-byte zero buffer.  Scalar cases write their header (and, for strings,
payload) from position 0; array, map and tag cases write only their header
because the recursively encoded members are discarded by the source. -/
def cborEncode : CborValue → ByteBuffer
  | .uint n => overlayAt 0 (encodeUnsignedBytes 0 n) (zerosBuffer 1024)
  | .nint i => overlayAt 0 (encodeUnsignedBytes 1 (uint64OfInt (-1 - i))) (zerosBuffer 1024)
  | .bytes bs =>
      overlayAt 0 bs (overlayAt 0 (encodeUnsignedBytes 2 bs.length) (zerosBuffer 1024))
  | .text s =>
      let bs := s.toUTF8.toList.map (fun b => b.toNat)
      overlayAt 0 bs (overlayAt 0 (encodeUnsignedBytes 3 bs.length) (zerosBuffer 1024))
  | .arr items => overlayAt 0 (encodeUnsignedBytes 4 items.length) (zerosBuffer 1024)
  | .map pairs => overlayAt 0 (encodeUnsignedBytes 5 pairs.length) (zerosBuffer 1024)
  | .tag t _ => overlayAt 0 (encodeUnsignedBytes 6 t) (zerosBuffer 1024)
  | .simple sv =>
      overlayAt 0
        (if sv ≤ 23 then [encodeHeader 7 sv] else [encodeHeader 7 24, sv])
        (zerosBuffer 1024)
  | .invalid => zerosBuffer 1024

/-- `Cbor::DecodeUnsigned` (part_014 lines 759-826): re-read the header from
the start of the buffer, check the major type, then read the immediate value
or the big-endian 1/2/4/8-byte extension. -/
def cborDecodeUnsigned (buffer : ByteBuffer) (major : Nat) : Option Nat :=
  match buffer with
  | [] => none
  | h :: rest =>
      let readMajor := (h >>> 5) &&& 0x07
      let ai := h &&& 0x1F
      if readMajor ≠ major then none
      else if ai ≤ 23 then some ai
      else if ai = 24 then
        match rest with
        | b :: _ => some b
        | [] => none
      else if ai = 25 then
        match rest with
        | b1 :: b2 :: _ => some ((b1 <<< 8) ||| b2)
        | _ => none
      else if ai = 26 then
        match rest with
        | b1 :: b2 :: b3 :: b4 :: _ =>
            some ((b1 <<< 24) ||| (b2 <<< 16) ||| (b3 <<< 8) ||| b4)
        | _ => none
      else if ai = 27 then
        match rest with
        | b1 :: b2 :: b3 :: b4 :: b5 :: b6 :: b7 :: b8 :: _ =>
            some ((b1 <<< 56) ||| (b2 <<< 48) ||| (b3 <<< 40) ||| (b4 <<< 32) |||
                  (b5 <<< 24) ||| (b6 <<< 16) ||| (b7 <<< 8) ||| b8)
        | _ => none
      else none

/-- `Cbor::Decode` (part_014 lines 670-713): reads the first header byte and
dispatches on the major type.  Only major types 0 (unsigned integer) and 1
(negative integer) are implemented; everything else returns `nullopt`. -/
def cborDecode (buffer : ByteBuffer) : Option CborValue :=
  match buffer with
  | [] => none
  | h :: _ =>
      let major := (h >>> 5) &&& 0x07
      if major = 0 then (cborDecodeUnsigned buffer 0).map CborValue.uint
      else if major = 1 then
        (cborDecodeUnsigned buffer 1).map
          (fun v => CborValue.nint (-1 - int64OfUInt64 v))
      else none

/-- `EndpointID::ToCbor` (endpoint.cc): a two-element CBOR array of the
scheme and the scheme-specific part. -/
def eidToCbor (e : EndpointID) : ByteBuffer :=
  cborEncode (.arr [.text e.scheme, .text e.ssp])

/-- `EndpointID::FromCbor` (endpoint.cc): decode, require a two-element
array of text strings, and re-parse `scheme:ssp`. -/
def eidFromCbor (buffer : ByteBuffer) : Option EndpointID :=
  match cborDecode buffer with
  | none => none
  | some cbor =>
      if !cbor.isArray then none
      else
        let array := cbor.getArray
        if array.length ≠ 2 then none
        else if !((array.getD 0 .invalid).isTextString) then none
        else if !((array.getD 1 .invalid).isTextString) then none
        else
          let scheme := (array.getD 0 .invalid).getTextString
          let ssp := (array.getD 1 .invalid).getTextString
          some (mkEndpointID (scheme ++ ":" ++ ssp))

/-! ## Canonical blocks (canonical-block.cc) -/

/-- Block type codes (block-type-codes.h): payload 1, previous node 6,
bundle age 7, hop count 10.  `CanonicalBlock::FromCbor` casts arbitrary
integers, so the model keeps the integer. -/
abbrev BlockType := Nat

def payloadBlockType : BlockType := 1
def previousNodeBlockType : BlockType := 6
def bundleAgeBlockType : BlockType := 7
def hopCountBlockType : BlockType := 10

/-- The C++ dynamic class of a canonical-block object, needed because
`RoutingAlgorithm::SendBundle` uses `DynamicCast<PreviousNodeBlock>`:
a block carrying the previous-node type code may still be a plain
`CanonicalBlock` instance (e.g. the replicas that
`FragmentationManager::FragmentBundle` creates with `Create<CanonicalBlock>`). -/
inductive BlockClass where
  | generic
  | payload
  | prevNode
  | bundleAge
  | hopCount
deriving Repr, DecidableEq

/-- `CanonicalBlock` (canonical-block.h): type, number, control flags, CRC
type, raw data bytes and CRC bytes, tagged with the C++ dynamic class. -/
structure CanonicalBlock where
  cls : BlockClass
  blockType : BlockType
  blockNumber : Nat
  blockControlFlags : Nat
  crcType : CRCType
  data : List Nat
  crcValue : List Nat
deriving Repr, DecidableEq

/-- `CanonicalBlock::MustBeReplicated` (canonical-block.cc):
`BLOCK_MUST_BE_REPLICATED = 1 << 0`. -/
def CanonicalBlock.mustBeReplicated (b : CanonicalBlock) : Bool :=
  b.blockControlFlags &&& 1 != 0

/-- `CanonicalBlock::ToCbor` (canonical-block.cc lines 264-284):
`[type, number, flags, crc-type, data-bytes, (crc-bytes)?]`. -/
def blockToCbor (b : CanonicalBlock) : ByteBuffer :=
  cborEncode (.arr
    ([.uint b.blockType, .uint b.blockNumber, .uint b.blockControlFlags,
      .uint b.crcType, .bytes b.data] ++
     (if b.crcType ≠ noCRC ∧ b.crcValue ≠ [] then
        [CborValue.bytes b.crcValue] else [])))

/-- `CanonicalBlock::CalculateCRC` (canonical-block.cc lines 199-240):
serialize with the CRC value cleared, then store the CRC bytes. -/
def blockCalculateCRC (b : CanonicalBlock) : CanonicalBlock :=
  if b.crcType = noCRC then { b with crcValue := [] }
  else
    let data := blockToCbor { b with crcValue := [] }
    if b.crcType = crcType16 then
      let c := calculateCRC16 data
      { b with crcValue := [(c >>> 8) &&& 0xFF, c &&& 0xFF] }
    else if b.crcType = crcType32 then
      let c := calculateCRC32 data
      { b with crcValue :=
          [(c >>> 24) &&& 0xFF, (c >>> 16) &&& 0xFF, (c >>> 8) &&& 0xFF, c &&& 0xFF] }
    else { b with crcValue := [] }

/-- `CanonicalBlock::CheckCRC` (canonical-block.cc lines 242-262). -/
def blockCheckCRC (b : CanonicalBlock) : Bool :=
  if b.crcType = noCRC then true
  else verifyCRC b.crcType (blockToCbor { b with crcValue := [] }) b.crcValue

/-- The dynamic class `CanonicalBlock::CreateBlock` assigns to each type
code (canonical-block.cc lines 33-87). -/
def blockClassOf (t : BlockType) : BlockClass :=
  if t = payloadBlockType then .payload
  else if t = previousNodeBlockType then .prevNode
  else if t = bundleAgeBlockType then .bundleAge
  else if t = hopCountBlockType then .hopCount
  else .generic

/-- `CanonicalBlock::CreateBlock` (canonical-block.cc lines 33-87): build a
block of the class matching the type code, carrying the given fields. -/
def createBlock (t : BlockType) (number flags : Nat) (crc : CRCType)
    (data : List Nat) : CanonicalBlock :=
  ⟨blockClassOf t, t, number, flags, crc, data, []⟩

/-- `PayloadBlock::PayloadBlock(payload)` (canonical-block.cc lines
375-378): type 1, block number 1, no flags, no CRC. -/
def payloadBlockMk (payload : List Nat) : CanonicalBlock :=
  ⟨.payload, payloadBlockType, 1, 0, noCRC, payload, []⟩

/-- `PreviousNodeBlock::SetPreviousNode` (canonical-block.cc lines 462-472):
store the CBOR encoding of the endpoint identifier as the block data. -/
def setPreviousNode (b : CanonicalBlock) (prev : EndpointID) : CanonicalBlock :=
  { b with data := eidToCbor prev }

/-- `PreviousNodeBlock::PreviousNodeBlock(previousNode)` (canonical-block.cc
lines 426-430): type 6, block number 2, no flags, no CRC, data from
`SetPreviousNode`. -/
def previousNodeBlockMk (prev : EndpointID) : CanonicalBlock :=
  setPreviousNode ⟨.prevNode, previousNodeBlockType, 2, 0, noCRC, [], []⟩ prev

/-- `CanonicalBlock::FromCbor` (canonical-block.cc lines 286-345). -/
def blockFromCbor (buffer : ByteBuffer) : Option CanonicalBlock :=
  match cborDecode buffer with
  | none => none
  | some cbor =>
      if !cbor.isArray then none
      else
        let array := cbor.getArray
        if array.length < 5 then none
        else
          let blockType := (array.getD 0 .invalid).getUnsignedInteger
          let blockNumber := (array.getD 1 .invalid).getUnsignedInteger
          let blockControlFlags := (array.getD 2 .invalid).getUnsignedInteger
          let crcType := (array.getD 3 .invalid).getUnsignedInteger
          if !((array.getD 4 .invalid).isByteString) then none
          else
            let data := (array.getD 4 .invalid).getByteString
            let block := createBlock blockType blockNumber blockControlFlags crcType data
            if crcType ≠ noCRC then
              if array.length ≤ 5 then none
              else if !((array.getD 5 .invalid).isByteString) then none
              else some { block with crcValue := (array.getD 5 .invalid).getByteString }
            else some block

/-! ## Primary block (primary-block.cc, part_009) -/

/-- Bundle control flag bits (bundle-control-flags.h, part_008):
`BUNDLE_MUST_NOT_BE_FRAGMENTED = 1 << 4`,
`PAYLOAD_IS_AN_ADMINISTRATIVE_RECORD = 1 << 5`,
`BUNDLE_IS_A_FRAGMENT = 1 << 6`. -/
def bundleMustNotFragmentFlag : Nat := 16

def bundleAdminRecordFlag : Nat := 32

def bundleIsFragmentFlag : Nat := 64

/-- `PrimaryBlock` (primary-block.h): version, control flags, CRC type, the
three endpoint identifiers, creation timestamp, sequence number, lifetime,
fragment fields and CRC bytes. -/
structure PrimaryBlock where
  version : Nat
  bundleControlFlags : Nat
  crcType : CRCType
  destinationEID : EndpointID
  sourceNodeEID : EndpointID
  reportToEID : EndpointID
  creationTimestamp : DtnTime
  sequenceNumber : Nat
  lifetime : TimeNS
  fragmentOffset : Nat
  totalApplicationDataUnitLength : Nat
  crcValue : List Nat
deriving Repr, DecidableEq

/-- `PrimaryBlock::IsFragment` / `HasFragmentation` (part_009 lines 50-68). -/
def PrimaryBlock.isFragment (p : PrimaryBlock) : Bool :=
  p.bundleControlFlags &&& bundleIsFragmentFlag != 0

/-- `PrimaryBlock::MustNotFragment` (part_009 lines 57-62). -/
def PrimaryBlock.mustNotFragment (p : PrimaryBlock) : Bool :=
  p.bundleControlFlags &&& bundleMustNotFragmentFlag != 0

/-- `PrimaryBlock::IsAdministrativeRecord` (part_009 lines 70-75). -/
def PrimaryBlock.isAdministrativeRecord (p : PrimaryBlock) : Bool :=
  p.bundleControlFlags &&& bundleAdminRecordFlag != 0

/-- `PrimaryBlock::SetFragmentation` (part_009 lines 165-178): set or clear
the `BUNDLE_IS_A_FRAGMENT` bit (the clear uses the 64-bit complement). -/
def PrimaryBlock.setFragmentation (p : PrimaryBlock) (enable : Bool) : PrimaryBlock :=
  if enable then
    { p with bundleControlFlags := p.bundleControlFlags ||| bundleIsFragmentFlag }
  else
    { p with bundleControlFlags := p.bundleControlFlags &&& 0xFFFFFFFFFFFFFFBF }

/-- `PrimaryBlock::ToCbor` (part_009 lines 275-313): the CBOR array
`[version, flags, crc-type, dst, src, report-to, [seconds, seq], lifetime-ms,
(frag-offset, total-adu)?, (crc-bytes)?]`.  The lifetime is passed as the
C++ `int64_t` of `GetMilliSeconds`, which selects the signed-integer
`CborValue` constructor. -/
def primaryToCbor (p : PrimaryBlock) : ByteBuffer :=
  cborEncode (.arr
    ([.uint p.version, .uint p.bundleControlFlags, .uint p.crcType,
      .text p.destinationEID.uri, .text p.sourceNodeEID.uri, .text p.reportToEID.uri,
      .arr [.uint p.creationTimestamp.seconds, .uint p.sequenceNumber],
      .nint (timeGetMilliSeconds p.lifetime)] ++
     (if p.isFragment then
        [CborValue.uint p.fragmentOffset,
         CborValue.uint p.totalApplicationDataUnitLength] else []) ++
     (if p.crcType ≠ noCRC ∧ p.crcValue ≠ [] then
        [CborValue.bytes p.crcValue] else [])))

/-- `PrimaryBlock::CalculateCRC` (part_009 lines 210-251): serialize with
the CRC value cleared, then store the CRC bytes. -/
def primaryCalculateCRC (p : PrimaryBlock) : PrimaryBlock :=
  if p.crcType = noCRC then { p with crcValue := [] }
  else
    let data := primaryToCbor { p with crcValue := [] }
    if p.crcType = crcType16 then
      let c := calculateCRC16 data
      { p with crcValue := [(c >>> 8) &&& 0xFF, c &&& 0xFF] }
    else if p.crcType = crcType32 then
      let c := calculateCRC32 data
      { p with crcValue :=
          [(c >>> 24) &&& 0xFF, (c >>> 16) &&& 0xFF, (c >>> 8) &&& 0xFF, c &&& 0xFF] }
    else { p with crcValue := [] }

/-- `PrimaryBlock::CheckCRC` (part_009 lines 253-273). -/
def primaryCheckCRC (p : PrimaryBlock) : Bool :=
  if p.crcType = noCRC then true
  else verifyCRC p.crcType (primaryToCbor { p with crcValue := [] }) p.crcValue

/-- The CRC-extraction tail of `PrimaryBlock::FromCbor` (part_009 lines
383-398): for CRC types other than `NO_CRC` the byte string sits at index 10
for fragments and 8 otherwise. -/
def primaryAttachCRC (array : List CborValue) (crcType : CRCType)
    (isFragment : Bool) (block : PrimaryBlock) : Option PrimaryBlock :=
  if crcType ≠ noCRC then
    let crcIndex := if isFragment then 10 else 8
    if array.length ≤ crcIndex then none
    else if !((array.getD crcIndex .invalid).isByteString) then none
    else some { block with crcValue := (array.getD crcIndex .invalid).getByteString }
  else some block

/-- `PrimaryBlock::FromCbor` (part_009 lines 315-401).  The creation
timestamp is rebuilt as `DtnTime(seconds, 0)`: the nanoseconds component is
not carried on the wire. -/
def primaryFromCbor (buffer : ByteBuffer) : Option PrimaryBlock :=
  match cborDecode buffer with
  | none => none
  | some cbor =>
      if !cbor.isArray then none
      else
        let array := cbor.getArray
        if array.length < 8 then none
        else
          let version := (array.getD 0 .invalid).getUnsignedInteger
          let bundleControlFlags := (array.getD 1 .invalid).getUnsignedInteger
          let crcType := (array.getD 2 .invalid).getUnsignedInteger
          let destinationEID := mkEndpointID (array.getD 3 .invalid).getTextString
          let sourceNodeEID := mkEndpointID (array.getD 4 .invalid).getTextString
          let reportToEID := mkEndpointID (array.getD 5 .invalid).getTextString
          if !((array.getD 6 .invalid).isArray) ∨
             (array.getD 6 .invalid).getArray.length ≠ 2 then none
          else
            let ts := (array.getD 6 .invalid).getArray
            let creationTimestamp : DtnTime := ⟨(ts.getD 0 .invalid).getUnsignedInteger, 0⟩
            let sequenceNumber := (ts.getD 1 .invalid).getUnsignedInteger
            let lifetime := millisecondsToTime (array.getD 7 .invalid).getUnsignedInteger
            let block : PrimaryBlock :=
              ⟨version, bundleControlFlags, crcType, destinationEID, sourceNodeEID,
               reportToEID, creationTimestamp, sequenceNumber, lifetime, 0, 0, []⟩
            let isFragment := bundleControlFlags &&& bundleIsFragmentFlag ≠ 0
            if isFragment then
              if array.length < 10 then none
              else
                let block := { block with
                  fragmentOffset := (array.getD 8 .invalid).getUnsignedInteger,
                  totalApplicationDataUnitLength :=
                    (array.getD 9 .invalid).getUnsignedInteger }
                primaryAttachCRC array crcType true block
            else primaryAttachCRC array crcType false block

/-! ## Bundle and Bundle ID (bundle.cc part_012, bundle-id.cc) -/

/-- `Bundle` (bundle.h): one primary block plus the ordered canonical
blocks. -/
structure Bundle where
  primaryBlock : PrimaryBlock
  canonicalBlocks : List CanonicalBlock
deriving Repr, DecidableEq

/-- `BundleID` (bundle-id.h): the identity tuple. -/
structure BundleID where
  source : EndpointID
  timestamp : DtnTime
  sequenceNumber : Nat
  isFragment : Bool
  fragmentOffset : Nat
deriving Repr, DecidableEq

/-- `BundleID::operator==` (bundle-id.cc lines 461-490): fieldwise, except
that the fragment offset is compared only when both sides are fragments. -/
def bidEq (a b : BundleID) : Bool :=
  if a.isFragment != b.isFragment then false
  else if !(eidEq a.source b.source) then false
  else if a.timestamp != b.timestamp then false
  else if a.sequenceNumber != b.sequenceNumber then false
  else if a.isFragment && b.isFragment && a.fragmentOffset != b.fragmentOffset then false
  else true

/-- `Bundle::GetId` (part_012 lines 61-70). -/
def bundleGetId (b : Bundle) : BundleID :=
  ⟨b.primaryBlock.sourceNodeEID, b.primaryBlock.creationTimestamp,
   b.primaryBlock.sequenceNumber, b.primaryBlock.isFragment,
   b.primaryBlock.fragmentOffset⟩

/-! The source keeps four `BundleID`-keyed maps (`std::unordered_map` /
`std::map`): the store's bundle map, spray's copy-count table, the routing
descriptor map and the fragment-set map.  They are modelled uniformly as
association lists with `BundleID::operator==` as key equality. -/

/-- `map.find(id)`: the first mapped value whose key compares equal. -/
def alistLookup {α : Type} (m : List (BundleID × α)) (id : BundleID) : Option α :=
  match m.find? (fun p => bidEq p.1 id) with
  | some p => some p.2
  | none => none

/-- `map[id] = v`: replace the mapped value when the key is present,
otherwise insert the pair. -/
def alistSet {α : Type} (m : List (BundleID × α)) (id : BundleID) (v : α) :
    List (BundleID × α) :=
  if (m.find? (fun p => bidEq p.1 id)).isSome then
    m.map (fun p => if bidEq p.1 id then (p.1, v) else p)
  else m ++ [(id, v)]

/-- In-place mutation through a reference obtained from `map.find(id)`. -/
def alistModify {α : Type} (m : List (BundleID × α)) (id : BundleID) (f : α → α) :
    List (BundleID × α) :=
  m.map (fun p => if bidEq p.1 id then (p.1, f p.2) else p)

/-- `Bundle::AddBlock` (part_012 lines 106-121): blocks with number 0 get
`max(existing numbers) + 1`; the block is appended. -/
def bundleAddBlock (b : Bundle) (blk : CanonicalBlock) : Bundle :=
  let blk :=
    if blk.blockNumber = 0 then
      { blk with blockNumber :=
          (b.canonicalBlocks.foldl (fun m eb => max m eb.blockNumber) 0) + 1 }
    else blk
  { b with canonicalBlocks := b.canonicalBlocks ++ [blk] }

/-- `Bundle::GetBlockByType` (part_012 lines 123-135): first block carrying
the type code. -/
def bundleGetBlockByType (b : Bundle) (t : BlockType) : Option CanonicalBlock :=
  b.canonicalBlocks.find? (fun blk => blk.blockType == t)

/-- `Bundle::GetPayloadBlock` (part_012 lines 168-172). -/
def bundleGetPayloadBlock (b : Bundle) : Option CanonicalBlock :=
  bundleGetBlockByType b payloadBlockType

/-- `Bundle::GetPayload` (part_012 lines 174-184): the payload block's data,
or empty. -/
def bundleGetPayload (b : Bundle) : List Nat :=
  match bundleGetPayloadBlock b with
  | some blk => blk.data
  | none => []

/-- `Bundle::CalculateCRC` (part_012 lines 202-213). -/
def bundleCalculateCRC (b : Bundle) : Bundle :=
  ⟨primaryCalculateCRC b.primaryBlock, b.canonicalBlocks.map blockCalculateCRC⟩

/-- `Bundle::CheckCRC` (part_012 lines 215-234). -/
def bundleCheckCRC (b : Bundle) : Bool :=
  primaryCheckCRC b.primaryBlock && b.canonicalBlocks.all blockCheckCRC

/-- `Bundle::ToCbor` (part_012 lines 236-267): decode each block's encoding
back to a `CborValue` (dropping blocks whose decoding fails — under the
placeholder decoder that is every block), collect them in the outer array,
and encode the array. -/
def bundleToCbor (b : Bundle) : ByteBuffer :=
  let array : List CborValue :=
    match cborDecode (primaryToCbor b.primaryBlock) with
    | some v => [v]
    | none => []
  let array := b.canonicalBlocks.foldl
    (fun acc blk =>
      match cborDecode (blockToCbor blk) with
      | some v => acc ++ [v]
      | none => acc) array
  cborEncode (.arr array)

/-- `Bundle::FromCbor` (part_012 lines 269-318). -/
def bundleFromCbor (buffer : ByteBuffer) : Option Bundle :=
  match cborDecode buffer with
  | none => none
  | some cbor =>
      if !cbor.isArray || cbor.getArray.isEmpty then none
      else
        let array := cbor.getArray
        if !((array.getD 0 .invalid).isArray) then none
        else
          match primaryFromCbor (cborEncode (array.getD 0 .invalid)) with
          | none => none
          | some primaryBlock =>
              some ((array.drop 1).foldl
                (fun bu item =>
                  if !item.isArray then bu
                  else
                    match blockFromCbor (cborEncode item) with
                    | some blk => bundleAddBlock bu blk
                    | none => bu)
                ⟨primaryBlock, []⟩)

/-! ## In-memory bundle store (part_003; a second copy of the same class
without the capacity branch sits in
dtn7-protocol/model/memory-bundle-store.cc) -/

/-- The `std::unordered_map<BundleID, Ptr<Bundle>>` of `MemoryBundleStore`,
as an association list keyed by `BundleID::operator==`. -/
abbrev StoreMap := List (BundleID × Bundle)

/-- `m_bundles.find(id)`. -/
def storeLookup (m : StoreMap) (id : BundleID) : Option Bundle :=
  alistLookup m id

/-- `m_bundles[id] = bundle`: replace the mapped value when the key is
present, otherwise insert the pair. -/
def storeInsert (m : StoreMap) (id : BundleID) (b : Bundle) : StoreMap :=
  alistSet m id b

/-- The `MaxBundles` attribute default (part_003 lines 793-797 and the
constructor, line 807). -/
def defaultMaxBundles : Nat := 1000

/-- `MemoryBundleStore::Push` (part_003 lines 815-840): reject a null
bundle; reject when `m_bundles.size() >= m_maxBundles`; otherwise store via
`m_bundles[id] = bundle` (which overwrites an entry that carries the same
ID) and report success.  The statistics counters are not modelled. -/
def mbsPush (m : StoreMap) (maxBundles : Nat) (bundle : Option Bundle) :
    StoreMap × Bool :=
  match bundle with
  | none => (m, false)
  | some b =>
      let id := bundleGetId b
      if m.length ≥ maxBundles then (m, false)
      else (storeInsert m id b, true)

/-- `MemoryBundleStore::Get` (part_003 lines 842-855): return the mapped
bundle whenever the ID is present; the expiry of the bundle is not
consulted. -/
def mbsGet (m : StoreMap) (id : BundleID) : Option Bundle :=
  storeLookup m id

/-- `MemoryBundleStore::Has` (part_003 lines 857-863). -/
def mbsHas (m : StoreMap) (id : BundleID) : Bool :=
  (m.find? (fun p => bidEq p.1 id)).isSome

/-- `MemoryBundleStore::Remove` (part_003 lines 865-879). -/
def mbsRemove (m : StoreMap) (id : BundleID) : StoreMap × Bool :=
  if (m.find? (fun p => bidEq p.1 id)).isSome then
    (m.filter (fun p => !(bidEq p.1 id)), true)
  else (m, false)

/-- `MemoryBundleStore::IsExpired` (part_003 lines 968-976):
`Simulator::Now() > creation-time + lifetime`. -/
def mbsIsExpired (now : TimeNS) (b : Bundle) : Bool :=
  now > b.primaryBlock.creationTimestamp.toTime + b.primaryBlock.lifetime

/-- `MemoryBundleStore::Cleanup` (part_003 lines 923-945): erase every
expired bundle, returning the number removed. -/
def mbsCleanup (now : TimeNS) (m : StoreMap) : StoreMap × Nat :=
  (m.filter (fun p => !(mbsIsExpired now p.2)),
   (m.filter (fun p => mbsIsExpired now p.2)).length)

/-! ## Spray-and-wait copy counting (spray-routing.cc) -/

/-- The copy-count side table `m_copies` of `SprayAndWaitRouting`, keyed by
`BundleID::operator==`. -/
abbrev CopyTable := List (BundleID × Nat)

/-- `m_copies.find(id)`. -/
def copyLookup (t : CopyTable) (id : BundleID) : Option Nat :=
  alistLookup t id

/-- `SprayAndWaitRouting::SetCopyCount` (spray-routing.cc lines 226-233):
`m_copies[id] = count`. -/
def setCopyCount (t : CopyTable) (id : BundleID) (count : Nat) : CopyTable :=
  alistSet t id count

/-- `SprayAndWaitRouting::GetCopyCount` (spray-routing.cc lines 235-248):
the stored count, defaulting to 1. -/
def getCopyCount (t : CopyTable) (id : BundleID) : Nat :=
  match copyLookup t id with
  | some c => c
  | none => 1

/-- `SprayAndWaitRouting::DecreaseCopyCount` (spray-routing.cc lines
250-265): when an entry larger than 1 exists, decrement it in place and
return the decremented value; otherwise return 1 without touching the
table. -/
def decreaseCopyCount (t : CopyTable) (id : BundleID) : Nat × CopyTable :=
  match copyLookup t id with
  | some c =>
      if c > 1 then (c - 1, setCopyCount t id (c - 1))
      else (1, t)
  | none => (1, t)

/-- Result of one spray-phase forwarding attempt. -/
structure SprayAttemptResult where
  copies : CopyTable
  peerCopies : Nat
  localCopies : Nat
  success : Bool
deriving Repr, DecidableEq

/-- One iteration of the spray-phase peer loop of
`SprayAndWaitRouting::DispatchBundles` (spray-routing.cc lines 193-220):
`newCount = DecreaseCopyCount(id)`, split `newCount` into
`peerCopies = newCount / 2` and `localCopies = newCount - peerCopies`, then
on a successful `SendBundle` store `localCopies`, and on a failed send store
`newCount` back (the comment "restore copy count" — note that the entry
already holds `newCount` after `DecreaseCopyCount`). -/
def sprayAttempt (copies : CopyTable) (id : BundleID) (sendOk : Bool) :
    SprayAttemptResult :=
  let r := decreaseCopyCount copies id
  let newCount := r.1
  let copies := r.2
  let peerCopies := newCount / 2
  let localCopies := newCount - peerCopies
  if sendOk then ⟨setCopyCount copies id localCopies, peerCopies, localCopies, true⟩
  else ⟨setCopyCount copies id newCount, peerCopies, localCopies, false⟩

/-! ## Routing engine bookkeeping (routing.cc part_004, epidemic-routing.cc) -/

/-- `BundleDescriptor` (routing.h): bundle ID, destination, expiration and
the peers already sent to. -/
structure BundleDescriptor where
  id : BundleID
  receiver : EndpointID
  expirationTime : TimeNS
  sentNodes : List EndpointID
deriving Repr, DecidableEq

/-- `BundleDescriptor::SentTo` (part_004 lines 13-25). -/
def descSentTo (d : BundleDescriptor) (node : EndpointID) : Bool :=
  d.sentNodes.any (fun s => eidEq s node)

/-- `BundleDescriptor::AddSentNode` (part_004 lines 27-34): append unless
already present. -/
def descAddSentNode (d : BundleDescriptor) (node : EndpointID) : BundleDescriptor :=
  if descSentTo d node then d else { d with sentNodes := d.sentNodes ++ [node] }

/-- The `m_bundles` descriptor map of `RoutingAlgorithm`. -/
abbrev DescriptorMap := List (BundleID × BundleDescriptor)

/-- `m_bundles.find(id)`. -/
def descLookup (m : DescriptorMap) (id : BundleID) : Option BundleDescriptor :=
  alistLookup m id

/-- In-place mutation of the descriptor found for `id` (the source holds a
reference into the map and calls `AddSentNode` on it). -/
def descModify (m : DescriptorMap) (id : BundleID)
    (f : BundleDescriptor → BundleDescriptor) : DescriptorMap :=
  alistModify m id f

/-- `RoutingAlgorithm::CalculateExpirationTime` (part_004 lines 185-195). -/
def calculateExpirationTime (b : Bundle) : TimeNS :=
  b.primaryBlock.creationTimestamp.toTime + b.primaryBlock.lifetime

/-- `RoutingAlgorithm::UpdateBundleDescriptor` (part_004 lines 160-183):
return the existing descriptor, or insert a fresh one with an empty sent-to
list. -/
def updateBundleDescriptor (m : DescriptorMap) (b : Bundle) : DescriptorMap :=
  let id := bundleGetId b
  if (descLookup m id).isSome then m
  else m ++ [(id, ⟨id, b.primaryBlock.destinationEID, calculateExpirationTime b, []⟩)]

/-- The two descriptor-mutating entry points of the epidemic routing engine,
with the environment's choices (store-push success, sender reachability,
convergence-layer send result) as event data:
`EpidemicRouting::NotifyNewBundle` (epidemic-routing.cc lines 34-53) and
`RoutingAlgorithm::SendBundle` (part_004 lines 102-158). -/
inductive RoutingEvent where
  | notifyNew (b : Bundle) (source : EndpointID) (pushOk : Bool)
  | send (b : Bundle) (receiver : EndpointID) (reachable sendOk : Bool)

/-- One descriptor-map transition.  `notifyNew`: when the store push
succeeded, create/fetch the descriptor and mark the source peer as already
sent to.  `send`: when a reachable sender was found and its `Send`
succeeded, record the receiver in the descriptor (if one exists). -/
def routingStep (m : DescriptorMap) : RoutingEvent → DescriptorMap
  | .notifyNew b source pushOk =>
      if !pushOk then m
      else descModify (updateBundleDescriptor m b) (bundleGetId b)
             (fun d => descAddSentNode d source)
  | .send b receiver reachable sendOk =>
      if reachable && sendOk then
        descModify m (bundleGetId b) (fun d => descAddSentNode d receiver)
      else m

/-- A reachable routing-engine state: the descriptor map after a trace of
events, starting from the empty map. -/
def routingRun (tr : List RoutingEvent) : DescriptorMap :=
  tr.foldl routingStep []

/-- The trace records a successful send of the bundle with ID `id` to peer
`p`: a `send` event whose receiver compares equal to `p`, whose bundle has
ID `id`, with a reachable sender and a successful transmission. -/
def eventIsSuccessfulSend (id : BundleID) (p : EndpointID) : RoutingEvent → Bool
  | .send b receiver reachable sendOk =>
      bidEq id (bundleGetId b) && eidEq receiver p && reachable && sendOk
  | _ => false

/-- The trace records `p` as the source peer of a successful
`NotifyNewBundle` for the bundle with ID `id`. -/
def eventIsNotifyFrom (id : BundleID) (p : EndpointID) : RoutingEvent → Bool
  | .notifyNew b source pushOk =>
      bidEq id (bundleGetId b) && eidEq source p && pushOk
  | _ => false

/-! ## SendBundle and the previous-node block (part_004 lines 102-158) -/

/-- The environment-visible behaviour of one `ConvergenceSender` for a fixed
endpoint: the result of `IsEndpointReachable` and the result `Send` would
return. -/
structure SenderBehavior where
  reachable : Bool
  sendOk : Bool
deriving Repr, DecidableEq

/-- The bundle mutation of `RoutingAlgorithm::SendBundle` (part_004 lines
114-124): `DynamicCast<PreviousNodeBlock>` of the first block with the
previous-node type code; when the cast succeeds, `SetPreviousNode` on that
block; when there is no such block, or the block is not a
`PreviousNodeBlock` instance, append a fresh `PreviousNodeBlock` via
`AddBlock`. -/
def setFirstPrevNodeData (blocks : List CanonicalBlock) (localNodeID : EndpointID) :
    List CanonicalBlock :=
  match blocks with
  | [] => []
  | blk :: rest =>
      if blk.blockType == previousNodeBlockType then
        setPreviousNode blk localNodeID :: rest
      else blk :: setFirstPrevNodeData rest localNodeID

/-- The previous-node update of `RoutingAlgorithm::SendBundle` applied to a
bundle. -/
def mutatePrevNode (localNodeID : EndpointID) (b : Bundle) : Bundle :=
  match bundleGetBlockByType b previousNodeBlockType with
  | some blk =>
      if blk.cls = .prevNode then
        { b with canonicalBlocks := setFirstPrevNodeData b.canonicalBlocks localNodeID }
      else bundleAddBlock b (previousNodeBlockMk localNodeID)
  | none => bundleAddBlock b (previousNodeBlockMk localNodeID)

/-- Result of `RoutingAlgorithm::SendBundle`: the bundle's final state, the
returned success flag, and the bundle value handed to
`ConvergenceSender::Send` (absent when no reachable sender was found). -/
structure SendBundleResult where
  bundle : Bundle
  success : Bool
  sentBundle : Option Bundle
deriving Repr, DecidableEq

/-- `RoutingAlgorithm::SendBundle` (part_004 lines 102-158): the first
sender whose `IsEndpointReachable` holds receives the bundle; before its
`Send` is called the previous-node block is stamped with the local node ID;
the send result is returned unchanged and the mutation is kept either way.
With no reachable sender the bundle is untouched and `false` returned.
(The descriptor update of the success path is covered by `routingStep`;
the statistics counters are not modelled.) -/
def sendBundleRun (senders : List SenderBehavior) (localNodeID : EndpointID)
    (b : Bundle) : SendBundleResult :=
  match senders.find? (fun s => s.reachable) with
  | some s =>
      let b2 := mutatePrevNode localNodeID b
      ⟨b2, s.sendOk, some b2⟩
  | none => ⟨b, false, none⟩

/-! ## Fragmentation manager (fragmentation-manager.cc) -/

/-- The header-overhead computation of
`FragmentationManager::FragmentBundle` (lines 69-81) and
`CalculateFragmentPayloadSize` (lines 397-410): the encoded size of the
primary block plus the encoded sizes of every must-be-replicated
non-payload canonical block. -/
def headerOverhead (b : Bundle) : Nat :=
  (primaryToCbor b.primaryBlock).length +
  b.canonicalBlocks.foldl
    (fun acc blk =>
      if blk.blockType ≠ payloadBlockType ∧ blk.mustBeReplicated then
        acc + (blockToCbor blk).length
      else acc) 0

/-- The per-fragment payload budget (lines 84-85 and 413-414):
`maxFragmentSize - headerOverhead` when that subtraction stays positive,
otherwise `maxFragmentSize / 2`. -/
def maxPayloadPerFragment (b : Bundle) (maxFragmentSize : Nat) : Nat :=
  let h := headerOverhead b
  if maxFragmentSize > h then maxFragmentSize - h else maxFragmentSize / 2

/-- `FragmentationManager::CalculateFragmentPayloadSize` (lines 388-424):
the budget, except that the last fragment gets the remaining bytes. -/
def calculateFragmentPayloadSize (b : Bundle) (maxFragmentSize i totalFragments : Nat) :
    Nat :=
  let totalLength := (bundleGetPayload b).length
  let effectiveMaxSize := maxPayloadPerFragment b maxFragmentSize
  if i = totalFragments - 1 then totalLength - i * effectiveMaxSize
  else effectiveMaxSize

/-- One iteration of the fragment-creation loop of
`FragmentationManager::FragmentBundle` (lines 94-148): offset `i * budget`;
fragments whose offset reaches the payload length are skipped by the
boundary check of lines 101-105; the slice size from
`CalculateFragmentPayloadSize` is clamped to the remaining bytes; the
fragment consists of the primary-block copy with fragment fields, the
payload slice, and replicas (as plain `CanonicalBlock` objects) of every
must-be-replicated non-payload block; CRCs are recomputed. -/
def fragmentLoopBody (b : Bundle) (payloadBlock : CanonicalBlock)
    (maxFragmentSize numFragments i : Nat) : Option Bundle :=
  let fullPayload := payloadBlock.data
  let totalLength := fullPayload.length
  let budget := maxPayloadPerFragment b maxFragmentSize
  let offset := i * budget
  let payloadSize := calculateFragmentPayloadSize b maxFragmentSize i numFragments
  if offset ≥ totalLength then none
  else
    let payloadSize :=
      if offset + payloadSize > totalLength then totalLength - offset
      else payloadSize
    let fragmentPrimary :=
      { b.primaryBlock.setFragmentation true with
          fragmentOffset := offset,
          totalApplicationDataUnitLength := totalLength }
    let fragment : Bundle := ⟨fragmentPrimary, []⟩
    let fragmentPayload := (fullPayload.drop offset).take payloadSize
    let fragment := bundleAddBlock fragment
      { payloadBlockMk fragmentPayload with crcType := payloadBlock.crcType }
    let fragment := b.canonicalBlocks.foldl
      (fun fr blk =>
        if blk.blockType ≠ payloadBlockType ∧ blk.mustBeReplicated then
          bundleAddBlock fr
            ⟨.generic, blk.blockType, blk.blockNumber,
             blk.blockControlFlags, blk.crcType, blk.data, []⟩
        else fr) fragment
    some (bundleCalculateCRC fragment)

/-- `FragmentationManager::FragmentBundle` (fragmentation-manager.cc lines
26-159): refuse when must-not-fragment, administrative record, or the
encoded bundle already fits; otherwise cut the payload into
`ceil(totalLength / budget)` slices via `fragmentLoopBody`. -/
def fragmentBundle (b : Bundle) (maxFragmentSize : Nat) : List Bundle :=
  if b.primaryBlock.mustNotFragment then []
  else if b.primaryBlock.isAdministrativeRecord then []
  else if (bundleToCbor b).length ≤ maxFragmentSize then []
  else
    match bundleGetPayloadBlock b with
    | none => []
    | some payloadBlock =>
        let totalLength := payloadBlock.data.length
        let budget := maxPayloadPerFragment b maxFragmentSize
        let numFragments := (totalLength + budget - 1) / budget
        (List.range numFragments).filterMap
          (fragmentLoopBody b payloadBlock maxFragmentSize numFragments)

/-- `FragmentInfo` (fragmentation-manager.h): the reassembly accumulator of
one fragment set. -/
structure FragmentInfo where
  sourceId : BundleID
  totalLength : Nat
  expirationTime : TimeNS
  complete : Bool
  fragments : List Bundle
deriving Repr, DecidableEq

/-- The `m_fragmentSets` map, keyed by the zeroed original bundle ID. -/
abbrev FragmentSetMap := List (BundleID × FragmentInfo)

/-- `m_fragmentSets.find`-style lookup. -/
def fragLookup (m : FragmentSetMap) (id : BundleID) : Option FragmentInfo :=
  alistLookup m id

/-- Write the (updated) fragment set back under its key. -/
def fragInsert (m : FragmentSetMap) (id : BundleID) (info : FragmentInfo) :
    FragmentSetMap :=
  alistSet m id info

/-- `FragmentationManager::GetOriginalBundleId` (lines 368-386): the
fragment's bundle ID with the fragment flag and offset zeroed.  (The
fallback for null/non-fragment arguments is unreachable from `AddFragment`,
which checks `IsFragment` first, and is not modelled: the default `DtnTime`
it would involve reads the wall clock.) -/
def getOriginalBundleId (frag : Bundle) : BundleID :=
  ⟨frag.primaryBlock.sourceNodeEID, frag.primaryBlock.creationTimestamp,
   frag.primaryBlock.sequenceNumber, false, 0⟩

/-- The insertion-sort used to model `std::sort` on fragments by fragment
offset (lines 228-232); offsets inside a set are distinct (duplicates are
rejected on arrival), so the order is uniquely determined. -/
def sortInsertByOffset (f : Bundle) : List Bundle → List Bundle
  | [] => [f]
  | g :: rest =>
      if f.primaryBlock.fragmentOffset < g.primaryBlock.fragmentOffset then
        f :: g :: rest
      else g :: sortInsertByOffset f rest

/-- Sort fragments by ascending fragment offset. -/
def sortByOffset (frags : List Bundle) : List Bundle :=
  frags.foldr sortInsertByOffset []

/-- The coverage walk of `FragmentationManager::TryReassemble` (lines
235-253): over the offset-sorted fragments, fail on a gap
(`offset > covered`), else accumulate
`covered = max(covered, offset + payload-length)`. -/
def coveredWalk (covered : Nat) : List Bundle → Option Nat
  | [] => some covered
  | f :: rest =>
      let offset := f.primaryBlock.fragmentOffset
      if offset > covered then none
      else coveredWalk (max covered (offset + (bundleGetPayload f).length)) rest

/-- `FragmentationManager::TryReassemble` (lines 219-310).  Already-complete
sets yield nothing.  Otherwise sort the fragments in place; on full coverage
build the reassembled bundle: the first fragment's primary block with the
fragment flag cleared, a payload of `totalLength` bytes assembled by copying
each fragment's payload at its offset, the non-payload blocks of the first
fragment, recomputed CRCs; mark the set complete.  (Indexing `fragments[0]`
on an empty vector is undefined behaviour in the source and is modelled as
yielding nothing.) -/
def tryReassemble (info : FragmentInfo) : FragmentInfo × Option Bundle :=
  if info.complete then (info, none)
  else
    let sorted := sortByOffset info.fragments
    let info := { info with fragments := sorted }
    match coveredWalk 0 sorted with
    | none => (info, none)
    | some covered =>
        if covered < info.totalLength then (info, none)
        else
          match sorted with
          | [] => (info, none)
          | first :: _ =>
              let reassembledPrimary := first.primaryBlock.setFragmentation false
              let reassembled : Bundle := ⟨reassembledPrimary, []⟩
              let payload := sorted.foldl
                (fun acc f =>
                  overlayAt f.primaryBlock.fragmentOffset (bundleGetPayload f) acc)
                (List.replicate info.totalLength 0)
              let reassembled := bundleAddBlock reassembled (payloadBlockMk payload)
              let reassembled := first.canonicalBlocks.foldl
                (fun r blk =>
                  if blk.blockType ≠ payloadBlockType then bundleAddBlock r blk
                  else r) reassembled
              ({ info with complete := true }, some (bundleCalculateCRC reassembled))

/-- `FragmentationManager::AddFragment` (lines 161-217): ignore
non-fragments; find or create the set keyed by the original bundle ID (a
freshly created or still-empty set records total length and expiration on
this first arrival); reject a fragment whose offset is already recorded,
leaving the map unchanged; otherwise append the fragment and attempt
reassembly, storing the updated set. -/
def addFragment (m : FragmentSetMap) (frag : Bundle) :
    FragmentSetMap × Option Bundle :=
  if !frag.primaryBlock.isFragment then (m, none)
  else
    let originalId := getOriginalBundleId frag
    let fragmentOffset := frag.primaryBlock.fragmentOffset
    let totalLength := frag.primaryBlock.totalApplicationDataUnitLength
    let expirationTime :=
      frag.primaryBlock.creationTimestamp.toTime + frag.primaryBlock.lifetime
    let info0 := (fragLookup m originalId).getD ⟨originalId, 0, 0, false, []⟩
    let info1 :=
      if info0.fragments.isEmpty then
        { info0 with sourceId := originalId, totalLength := totalLength,
                     expirationTime := expirationTime, complete := false }
      else info0
    if info1.fragments.any
        (fun f => f.primaryBlock.fragmentOffset == fragmentOffset) then (m, none)
    else
      let r := tryReassemble { info1 with fragments := info1.fragments ++ [frag] }
      (fragInsert m originalId r.1, r.2)

/-- `FragmentationManager::CleanupExpiredFragments` (lines 312-338): drop
every set whose expiration time has passed. -/
def cleanupExpiredFragments (now : TimeNS) (m : FragmentSetMap) :
    FragmentSetMap × Nat :=
  (m.filter (fun p => !(now > p.2.expirationTime)),
   (m.filter (fun p => now > p.2.expirationTime)).length)

/-! ## Concrete sample values used by witnesses and counterexamples -/

/-- A `dtn://a/` endpoint (the value `EndpointID("dtn://a/")` produces). -/
def eidA : EndpointID := ⟨"dtn", "//a/", "dtn://a/"⟩

/-- A `dtn://b/` endpoint. -/
def eidB : EndpointID := ⟨"dtn", "//b/", "dtn://b/"⟩

/-- A primary block: version 7, no flags, no CRC, destination `dtn://b/`,
source `dtn://a/`, creation at 100 s, sequence 1, lifetime 3600 s. -/
def samplePrimary : PrimaryBlock :=
  ⟨7, 0, noCRC, eidB, eidA, eidNone, ⟨100, 0⟩, 1, 3600000000000, 0, 0, []⟩

/-- A bundle with a four-byte payload. -/
def sampleBundle : Bundle := ⟨samplePrimary, [payloadBlockMk [1, 2, 3, 4]]⟩

/-- A different bundle carrying the same bundle ID (same primary block). -/
def sampleBundle2 : Bundle := ⟨samplePrimary, [payloadBlockMk [9, 9]]⟩

/-- The common bundle ID of `sampleBundle` and `sampleBundle2`. -/
def sampleBID : BundleID := bundleGetId sampleBundle

/-- A store holding `sampleBundle`. -/
def storeState1 : StoreMap := [(sampleBID, sampleBundle)]

/-- The bytes of the standard CRC check string `"123456789"`. -/
def crc32CheckInput : List Nat := [0x31, 0x32, 0x33, 0x34, 0x35, 0x36, 0x37, 0x38, 0x39]

/-- A copy table holding 2 copies for `sampleBundle`. -/
def sprayTable2 : CopyTable := [(sampleBID, 2)]

/-- A copy table holding 3 copies for `sampleBundle`. -/
def sprayTable3 : CopyTable := [(sampleBID, 3)]

/-- A routing trace consisting of one `NotifyNewBundle(sampleBundle, eidB)`
whose store push succeeded. -/
def c8Trace : List RoutingEvent := [.notifyNew sampleBundle eidB true]

/-- The descriptor this trace produces: `eidB` marked as already sent to. -/
def c8Desc : BundleDescriptor := ⟨sampleBID, eidB, 3700000000000, [eidB]⟩

/-- The descriptor-map entry of `c8Trace`'s final state. -/
def c8Pair : BundleID × BundleDescriptor := (sampleBID, c8Desc)

/-- A bundle that needs fragmenting: twelve payload bytes. -/
def fragSrc : Bundle :=
  ⟨samplePrimary, [payloadBlockMk [0, 1, 2, 3, 4, 5, 6, 7, 8, 9, 10, 11]]⟩

/-- A fragment of a four-byte ADU: offset 0, payload `[9, 8]`. -/
def frag0 : Bundle :=
  ⟨{ samplePrimary.setFragmentation true with
       fragmentOffset := 0, totalApplicationDataUnitLength := 4 },
   [payloadBlockMk [9, 8]]⟩

/-- The matching fragment at offset 2, payload `[7, 6]`. -/
def frag1 : Bundle :=
  ⟨{ samplePrimary.setFragmentation true with
       fragmentOffset := 2, totalApplicationDataUnitLength := 4 },
   [payloadBlockMk [7, 6]]⟩

/-- The reassembly key of `frag0` and `frag1`. -/
def c9OrigId : BundleID := getOriginalBundleId frag0

/-- The fragment set after `frag0` arrived. -/
def c9Info : FragmentInfo := ⟨c9OrigId, 4, 3700000000000, false, [frag0]⟩

/-- The fragment-set map holding that set. -/
def c9State : FragmentSetMap := [(c9OrigId, c9Info)]

/-- Two senders: the first unreachable, the second reachable but with a
failing `Send`. -/
def c10Senders : List SenderBehavior := [⟨false, true⟩, ⟨true, false⟩]

/-! ## Shared lemmas -/

/-- `BundleID::operator==` is reflexive. -/
theorem bidEq_refl (a : BundleID) : bidEq a a = true := by
  simp [bidEq, eidEq]

/-- Looking up the key just written by `map[id] = v` yields `v`. -/
theorem alistLookup_set_self {α : Type} (m : List (BundleID × α)) (id : BundleID)
    (v : α) : alistLookup (alistSet m id v) id = some v := by
  unfold alistSet
  split
  case isTrue h =>
    induction m with
    | nil => simp at h
    | cons p rest ih =>
        cases hc : bidEq p.1 id with
        | true =>
            simp only [List.map_cons, hc, if_true]
            simp [alistLookup, List.find?_cons_of_pos, hc]
        | false =>
            simp only [List.map_cons, hc, if_false]
            have h' : (rest.find? (fun p => bidEq p.1 id)).isSome = true := by
              simpa [List.find?_cons, hc] using h
            simpa [alistLookup, List.find?_cons, hc] using ih h'
  case isFalse h =>
    induction m with
    | nil => simp [alistLookup, List.find?, bidEq_refl]
    | cons p rest ih =>
        have hc : bidEq p.1 id = false := by
          by_contra hcc
          simp only [Bool.not_eq_false] at hcc
          simp [List.find?_cons_of_pos, hcc] at h
        have h' : ¬ (rest.find? (fun p => bidEq p.1 id)).isSome = true := by
          simpa [List.find?_cons, hc] using h
        simpa [alistLookup, List.find?_cons, hc] using ih h'

theorem alistLookup_map_isSome {α : Type} (m : List (BundleID × α)) (id id' : BundleID)
    (v : α) (h : (alistLookup m id').isSome = true) :
    (alistLookup (m.map (fun p => if bidEq p.1 id then (p.1, v) else p)) id').isSome = true := by
  induction m with
  | nil => simp [alistLookup] at h
  | cons p rest ih =>
      by_cases hc : bidEq p.1 id' = true
      · by_cases hd : bidEq p.1 id = true
        · simp [alistLookup, List.find?_cons, hd, hc]
        · simp [alistLookup, List.find?_cons, hd, hc]
      · have hcf : bidEq p.1 id' = false := by simpa using hc
        have h' : (alistLookup rest id').isSome = true := by
          simpa [alistLookup, List.find?_cons, hcf] using h
        by_cases hd : bidEq p.1 id = true
        · have := ih h'
          simpa [alistLookup, List.find?_cons, hd, hcf] using this
        · have := ih h'
          simpa [alistLookup, List.find?_cons, hd, hcf] using this

theorem alistLookup_append_isSome {α : Type} (m l₂ : List (BundleID × α))
    (id' : BundleID) (h : (alistLookup m id').isSome = true) :
    (alistLookup (m ++ l₂) id').isSome = true := by
  induction m with
  | nil => simp [alistLookup] at h
  | cons p rest ih =>
      by_cases hc : bidEq p.1 id' = true
      · simp [alistLookup, List.find?_cons, hc]
      · have hcf : bidEq p.1 id' = false := by simpa using hc
        have h' : (alistLookup rest id').isSome = true := by
          simpa [alistLookup, List.find?_cons, hcf] using h
        have := ih h'
        simpa [alistLookup, List.find?_cons, hcf] using this

theorem alistLookup_set_isSome {α : Type} (m : List (BundleID × α))
    (id id' : BundleID) (v : α) (h : (alistLookup m id').isSome = true) :
    (alistLookup (alistSet m id v) id').isSome = true := by
  unfold alistSet
  split
  · exact alistLookup_map_isSome m id id' v h
  · exact alistLookup_append_isSome m [(id, v)] id' h

/-- Claim C1, counterexample: a push of a bundle whose ID is already present
in the store is not rejected — `MemoryBundleStore::Push` returns `true` and
overwrites the stored bundle, refuting the duplicate-rejection part of the
claim at a concrete store state. -/
theorem spec2proof_c1_counterexample :
    mbsHas storeState1 (bundleGetId sampleBundle2) = true ∧
    (mbsPush storeState1 defaultMaxBundles (some sampleBundle2)).2 = true ∧
    storeLookup (mbsPush storeState1 defaultMaxBundles (some sampleBundle2)).1
      (bundleGetId sampleBundle2) = some sampleBundle2 := by decide

/-- Claim C1 (amended): `Push(b)` returns `false` when the bundle is null or
the store already holds the configured maximum number of bundles (default
1000); otherwise it stores `b` under its ID — overwriting any bundle already
carrying that ID — and returns `true`; no stored bundle is evicted (every
present ID stays present). -/
theorem spec2proof_c1 (m : StoreMap) (maxB : Nat) (b : Bundle) :
    (m.length ≥ maxB → mbsPush m maxB (some b) = (m, false)) ∧
    (m.length < maxB →
       (mbsPush m maxB (some b)).2 = true ∧
       storeLookup (mbsPush m maxB (some b)).1 (bundleGetId b) = some b ∧
       ∀ id, (storeLookup m id).isSome = true →
         (storeLookup (mbsPush m maxB (some b)).1 id).isSome = true) ∧
    mbsPush m maxB none = (m, false) := by
  refine ⟨?_, ?_, rfl⟩
  · intro h
    simp [mbsPush, h]
  · intro h
    have hlt : ¬ m.length ≥ maxB := by omega
    refine ⟨by simp [mbsPush, hlt], ?_, ?_⟩
    · simp only [mbsPush, hlt, if_false, if_neg hlt]
      exact alistLookup_set_self m (bundleGetId b) b
    · intro id hid
      simp only [mbsPush, hlt, if_false, if_neg hlt]
      exact alistLookup_set_isSome m (bundleGetId b) id b hid

/-- Claim C1, witness: the amended theorem applied to a one-entry store with
capacity 1 (rejection) and capacity 1000 (acceptance). -/
theorem spec2proof_c1_witness :
    mbsPush storeState1 1 (some sampleBundle2) = (storeState1, false) ∧
    (mbsPush storeState1 1000 (some sampleBundle2)).2 = true :=
  ⟨(spec2proof_c1 storeState1 1 sampleBundle2).1 (by decide),
   ((spec2proof_c1 storeState1 1000 sampleBundle2).2.1 (by decide)).1⟩

set_option maxRecDepth 4096 in
/-- Claim C3: on the standard check input `"123456789"` the source's
`CalculateCRC32` yields `0xF28417BE`, while CRC-32/Castagnoli as the spec
defines it yields the well-known check value `0xE3069283`; the two disagree
(the source XORs the non-reflected polynomial constant `0x1EDC6F41` inside
a right-shifting, i.e. reflected, loop). -/
theorem spec2proof_c3 :
    calculateCRC32 crc32CheckInput = 0xF28417BE ∧
    crc32CastagnoliRef crc32CheckInput = 0xE3069283 ∧
    calculateCRC32 crc32CheckInput ≠ crc32CastagnoliRef crc32CheckInput := by decide

/-- Claim C4, counterexample: a stored bundle whose creation-time + lifetime
lies before the current time is still returned by `MemoryBundleStore::Get`,
refuting the claim that `Get` returns absence for expired bundles. -/
theorem spec2proof_c4_counterexample :
    mbsIsExpired 4000000000000 sampleBundle = true ∧
    mbsGet storeState1 (bundleGetId sampleBundle) = some sampleBundle := by decide

/-- Claim C4 (amended): `Get(id)` returns the stored bundle whenever a
bundle with that ID is present — even when the bundle is expired at the
current time; `Get` never consults expiry.  Expired bundles disappear only
through `Cleanup`, which leaves no expired bundle behind. -/
theorem spec2proof_c4 (m : StoreMap) (id : BundleID) (b : Bundle) (now : TimeNS)
    (hfound : storeLookup m id = some b) (_hexp : mbsIsExpired now b = true) :
    mbsGet m id = some b ∧
    ∀ p ∈ (mbsCleanup now m).1, mbsIsExpired now p.2 = false := by
  constructor
  · exact hfound
  · intro p hp
    have := List.of_mem_filter hp
    simpa using this

/-- Claim C4, witness: the amended theorem applied to a store holding an
expired bundle at time 4000 s. -/
theorem spec2proof_c4_witness :
    mbsGet storeState1 sampleBID = some sampleBundle ∧
    ∀ p ∈ (mbsCleanup 4000000000000 storeState1).1,
      mbsIsExpired 4000000000000 p.2 = false :=
  spec2proof_c4 storeState1 sampleBID sampleBundle 4000000000000 (by decide) (by decide)

/-- Claim C5: with a copy count of 2 before a spray-phase forwarding
attempt, a failed transmission leaves the copy-count entry at 1, not 2:
`DecreaseCopyCount` decrements the entry in place before the send, and the
failure branch's `SetCopyCount(id, newCount)` writes back the already
decremented value, so a failed send does spend a copy — the code contradicts
its own "restore copy count" comment and the claim. -/
theorem spec2proof_c5 :
    getCopyCount sprayTable2 sampleBID = 2 ∧
    (sprayAttempt sprayTable2 sampleBID false).success = false ∧
    copyLookup (sprayAttempt sprayTable2 sampleBID false).copies sampleBID = some 1 := by
  decide

/-- Claim C6, counterexample: with a copy count of 3, a successful
spray-phase forwarding leaves the local entry at 1, not at
`3 - 3 / 2 = 2` as the claim requires. -/
theorem spec2proof_c6_counterexample :
    getCopyCount sprayTable3 sampleBID = 3 ∧
    ¬ (copyLookup (sprayAttempt sprayTable3 sampleBID true).copies sampleBID
        = some (3 - 3 / 2)) := by decide

/-- Claim C6 (amended): in the spray phase (stored count `c > 1`) each
forwarding attempt first decrements the count to `n = c - 1`; a successful
forwarding computes `peerCopies = n / 2` for the peer and stores
`n - n / 2` locally.  No positivity guard precedes the attempt; instead the
local remainder `n - n / 2` is always at least 1. -/
theorem spec2proof_c6 (t : CopyTable) (id : BundleID) (c : Nat)
    (hc : copyLookup t id = some c) (h1 : 1 < c) :
    (sprayAttempt t id true).peerCopies = (c - 1) / 2 ∧
    copyLookup (sprayAttempt t id true).copies id = some ((c - 1) - (c - 1) / 2) ∧
    1 ≤ (c - 1) - (c - 1) / 2 := by
  have hd : decreaseCopyCount t id = (c - 1, setCopyCount t id (c - 1)) := by
    simp [decreaseCopyCount, hc, h1]
  refine ⟨?_, ?_, ?_⟩
  · simp [sprayAttempt, hd]
  · simp only [sprayAttempt, hd, if_true]
    exact alistLookup_set_self _ id _
  · omega

/-- Claim C6, witness: the amended theorem applied to a table holding
3 copies. -/
theorem spec2proof_c6_witness :
    (sprayAttempt sprayTable3 sampleBID true).peerCopies = (3 - 1) / 2 ∧
    copyLookup (sprayAttempt sprayTable3 sampleBID true).copies sampleBID
      = some ((3 - 1) - (3 - 1) / 2) ∧
    1 ≤ (3 - 1) - (3 - 1) / 2 :=
  spec2proof_c6 sprayTable3 sampleBID 3 (by decide) (by decide)

theorem headerMajor (major : Nat) (h : major < 8) (ai : Nat) :
    ((encodeHeader major ai) >>> 5) &&& 0x07 = major := by
  have key : ∀ M, M < 8 → ∀ y, y < 32 → (((M <<< 5) ||| y) >>> 5) &&& 0x07 = M := by decide
  have h31 : ai &&& 0x1F < 32 := Nat.lt_succ_of_le Nat.and_le_right
  exact key major h (ai &&& 0x1F) h31

theorem cborDecode_of_arr (items : List CborValue) :
    cborDecode (cborEncode (.arr items)) = none := by
  simp only [cborEncode, overlayAt, encodeUnsignedBytes]
  split_ifs <;>
    · simp only [List.take_zero, List.nil_append, List.cons_append, cborDecode,
        headerMajor 4 (by norm_num)]
      norm_num

/-- Claim C2: for every bundle `b`, `Bundle::FromCbor(Bundle::ToCbor(b))`
yields nothing — never `b`.  `Cbor::Decode` is a placeholder handling only
the integer major types, so the block encodings (CBOR arrays) cannot be
re-decoded, `ToCbor` emits an empty outer array, and `FromCbor` fails on its
array header.  This refutes the round-trip claim at every input. -/
theorem spec2proof_c2 : ∀ b : Bundle, bundleFromCbor (bundleToCbor b) = none := by
  intro b
  have h : cborDecode (bundleToCbor b) = none := by
    unfold bundleToCbor
    exact cborDecode_of_arr _
  unfold bundleFromCbor
  rw [h]

theorem encodeUnsignedBytes_length_le (major v : Nat) :
    (encodeUnsignedBytes major v).length ≤ 9 := by
  unfold encodeUnsignedBytes
  split_ifs <;> simp

theorem overlay0_zeros_length (src : List Nat) (h : src.length ≤ 1024) :
    (overlayAt 0 src (zerosBuffer 1024)).length = 1024 := by
  rw [overlayAt]
  simp only [List.take_zero, List.nil_append, List.length_append, List.length_drop,
    zerosBuffer, List.length_replicate]
  omega

theorem cborEncode_arr_length (items : List CborValue) :
    (cborEncode (.arr items)).length = 1024 := by
  simp only [cborEncode]
  exact overlay0_zeros_length _
    (le_trans (encodeUnsignedBytes_length_le 4 items.length) (by norm_num))

theorem primaryToCbor_length (p : PrimaryBlock) : (primaryToCbor p).length = 1024 :=
  cborEncode_arr_length _

theorem blockToCbor_length (blk : CanonicalBlock) : (blockToCbor blk).length = 1024 :=
  cborEncode_arr_length _

theorem bundleToCbor_length (b : Bundle) : (bundleToCbor b).length = 1024 := by
  unfold bundleToCbor
  exact cborEncode_arr_length _

theorem headerOverhead_ge (b : Bundle) : 1024 ≤ headerOverhead b := by
  unfold headerOverhead
  rw [primaryToCbor_length]
  exact Nat.le_add_right _ _

theorem budget_of_small (b : Bundle) (m : Nat) (hm : m < 1024) :
    maxPayloadPerFragment b m = m / 2 := by
  unfold maxPayloadPerFragment
  have h := headerOverhead_ge b
  rw [if_neg (by omega)]

theorem budget_eq_claim (b : Bundle) (m : Nat) (hm : m < 1024) :
    maxPayloadPerFragment b m = max (m - headerOverhead b) (m / 2) := by
  have h := headerOverhead_ge b
  rw [budget_of_small b m hm]
  have hz : m - headerOverhead b = 0 := by omega
  rw [hz]
  omega

theorem or64_and64 (x : Nat) : (x ||| 64) &&& 64 = 64 := by
  have h64 : (64 : Nat) = 2 ^ 6 := by norm_num
  rw [h64, Nat.and_two_pow, Nat.testBit_or]
  have ht : Nat.testBit (2 ^ 6) 6 = true := by decide
  have ht2 : Nat.testBit 64 6 = true := by decide
  simp [ht, ht2]

theorem setFragmentation_true_isFragment (p : PrimaryBlock) :
    (p.setFragmentation true).isFragment = true := by
  simp only [PrimaryBlock.setFragmentation, if_true, PrimaryBlock.isFragment,
    bundleIsFragmentFlag, or64_and64]
  decide

theorem primaryCalculateCRC_eq (p : PrimaryBlock) :
    ∃ cv, primaryCalculateCRC p = { p with crcValue := cv } := by
  unfold primaryCalculateCRC
  split_ifs <;> exact ⟨_, rfl⟩

theorem primaryCalculateCRC_fragmentOffset (p : PrimaryBlock) :
    (primaryCalculateCRC p).fragmentOffset = p.fragmentOffset := by
  obtain ⟨cv, h⟩ := primaryCalculateCRC_eq p
  rw [h]

theorem primaryCalculateCRC_totalADU (p : PrimaryBlock) :
    (primaryCalculateCRC p).totalApplicationDataUnitLength
      = p.totalApplicationDataUnitLength := by
  obtain ⟨cv, h⟩ := primaryCalculateCRC_eq p
  rw [h]

theorem primaryCalculateCRC_isFragment (p : PrimaryBlock) :
    (primaryCalculateCRC p).isFragment = p.isFragment := by
  obtain ⟨cv, h⟩ := primaryCalculateCRC_eq p
  rw [h]
  simp [PrimaryBlock.isFragment]

theorem foldl_addBlock_primary {α : Type} (l : List α) (b : Bundle)
    (pick : α → Bool) (g : α → CanonicalBlock) :
    (l.foldl (fun fr blk => if pick blk then bundleAddBlock fr (g blk) else fr)
      b).primaryBlock = b.primaryBlock := by
  induction l generalizing b with
  | nil => rfl
  | cons x xs ih =>
      simp only [List.foldl_cons]
      split_ifs <;> simpa [bundleAddBlock] using ih _

theorem lt_of_lt_ceilDiv (i L B : Nat) (hB : 1 ≤ B) (hL : 1 ≤ L)
    (h : i < (L + B - 1) / B) : i * B < L := by
  by_contra hcon
  push_neg at hcon
  have h1 : (L + B - 1) / B < i + 1 := by
    rw [Nat.div_lt_iff_lt_mul (by omega)]
    rw [Nat.succ_mul]
    omega
  omega

theorem filterMap_eq_map_of {α β : Type} (l : List α) (f : α → Option β) (g : α → β)
    (h : ∀ x ∈ l, f x = some (g x)) : l.filterMap f = l.map g := by
  induction l with
  | nil => rfl
  | cons x xs ih =>
      rw [List.filterMap_cons, h x (List.mem_cons_self x xs), List.map_cons,
        ih (fun y hy => h y (List.mem_cons_of_mem x hy))]

theorem bundleCalculateCRC_primary (b : Bundle) :
    (bundleCalculateCRC b).primaryBlock = primaryCalculateCRC b.primaryBlock := rfl

theorem bundleAddBlock_primary (b : Bundle) (blk : CanonicalBlock) :
    (bundleAddBlock b blk).primaryBlock = b.primaryBlock := rfl

theorem foldl_replicate_primary (l : List CanonicalBlock) (b : Bundle) :
    (l.foldl (fun fr blk =>
        if blk.blockType ≠ payloadBlockType ∧ blk.mustBeReplicated then
          bundleAddBlock fr
            ⟨.generic, blk.blockType, blk.blockNumber,
             blk.blockControlFlags, blk.crcType, blk.data, []⟩
        else fr) b).primaryBlock = b.primaryBlock := by
  induction l generalizing b with
  | nil => rfl
  | cons x xs ih =>
      simp only [List.foldl_cons]
      split_ifs <;> simpa [bundleAddBlock] using ih _

theorem fragmentLoopBody_some (b : Bundle) (pb : CanonicalBlock) (m nf i : Nat)
    (hlt : i * maxPayloadPerFragment b m < pb.data.length) :
    ∃ fr, fragmentLoopBody b pb m nf i = some fr ∧
      fr.primaryBlock.fragmentOffset = i * maxPayloadPerFragment b m ∧
      fr.primaryBlock.totalApplicationDataUnitLength = pb.data.length ∧
      fr.primaryBlock.isFragment = true := by
  simp only [fragmentLoopBody]
  rw [if_neg (by omega)]
  refine ⟨_, rfl, ?_, ?_, ?_⟩
  · rw [bundleCalculateCRC_primary, foldl_replicate_primary,
      bundleAddBlock_primary, primaryCalculateCRC_fragmentOffset]
  · rw [bundleCalculateCRC_primary, foldl_replicate_primary,
      bundleAddBlock_primary, primaryCalculateCRC_totalADU]
  · rw [bundleCalculateCRC_primary, foldl_replicate_primary,
      bundleAddBlock_primary, primaryCalculateCRC_isFragment]
    exact setFragmentation_true_isFragment _

/-- Claim C7: for every bundle that `FragmentationManager::FragmentBundle`
actually fragments (fragmentation allowed, encoded size above the limit,
payload present and non-empty, `2 ≤ m`), the per-fragment payload budget the
code uses equals `max(m - header-overhead, m / 2)` with the header overhead
computed from the code's own block encodings, the split produces
`ceil(payload-length / budget)` fragments, and fragment `i` carries
fragment-offset `i * budget`, the original payload length as total-ADU
length, and the is-fragment flag. -/
theorem spec2proof_c7 (b : Bundle) (pb : CanonicalBlock) (m : Nat)
    (hnofrag : b.primaryBlock.mustNotFragment = false)
    (hnoadmin : b.primaryBlock.isAdministrativeRecord = false)
    (hpb : bundleGetPayloadBlock b = some pb)
    (hbig : m < (bundleToCbor b).length)
    (hL : 1 ≤ pb.data.length)
    (hm : 2 ≤ m) :
    maxPayloadPerFragment b m = max (m - headerOverhead b) (m / 2) ∧
    (fragmentBundle b m).length =
      (pb.data.length + maxPayloadPerFragment b m - 1) / maxPayloadPerFragment b m ∧
    ∀ i (h : i < (fragmentBundle b m).length),
      ((fragmentBundle b m).get ⟨i, h⟩).primaryBlock.fragmentOffset
        = i * maxPayloadPerFragment b m ∧
      ((fragmentBundle b m).get ⟨i, h⟩).primaryBlock.totalApplicationDataUnitLength
        = pb.data.length ∧
      ((fragmentBundle b m).get ⟨i, h⟩).primaryBlock.isFragment = true := by
  have hm1024 : m < 1024 := by rw [bundleToCbor_length] at hbig; exact hbig
  have hbudget := budget_of_small b m hm1024
  have hB : 1 ≤ maxPayloadPerFragment b m := by rw [hbudget]; omega
  set L := pb.data.length with hLdef
  set B := maxPayloadPerFragment b m with hBdef
  set nf := (L + B - 1) / B with hnf
  have hred : fragmentBundle b m =
      (List.range nf).filterMap (fragmentLoopBody b pb m nf) := by
    unfold fragmentBundle
    rw [if_neg (by rw [hnofrag]; exact Bool.false_ne_true),
        if_neg (by rw [hnoadmin]; exact Bool.false_ne_true),
        if_neg (by omega), hpb]
  have key : ∀ i, i < nf → ∃ fr, fragmentLoopBody b pb m nf i = some fr ∧
      fr.primaryBlock.fragmentOffset = i * B ∧
      fr.primaryBlock.totalApplicationDataUnitLength = L ∧
      fr.primaryBlock.isFragment = true := by
    intro i hi
    exact fragmentLoopBody_some b pb m nf i (lt_of_lt_ceilDiv i L B hB hL hi)
  have hmap : (List.range nf).filterMap (fragmentLoopBody b pb m nf) =
      (List.range nf).map (fun i => (fragmentLoopBody b pb m nf i).getD sampleBundle) := by
    apply filterMap_eq_map_of
    intro i hi
    obtain ⟨fr, hf, _⟩ := key i (List.mem_range.mp hi)
    rw [hf]
    rfl
  refine ⟨budget_eq_claim b m hm1024, ?_, ?_⟩
  · rw [hred, hmap, List.length_map, List.length_range]
  · intro i h
    have hi : i < nf := by
      have := h
      rw [hred, hmap, List.length_map, List.length_range] at this
      exact this
    obtain ⟨fr, hf, h1, h2, h3⟩ := key i hi
    have hlen2 : i <
        ((List.range nf).map
          (fun j => (fragmentLoopBody b pb m nf j).getD sampleBundle)).length := by
      rw [List.length_map, List.length_range]
      exact hi
    have hget : (fragmentBundle b m).get ⟨i, h⟩ = fr := by
      have heq : (fragmentBundle b m).get ⟨i, h⟩ =
          ((List.range nf).map
            (fun j => (fragmentLoopBody b pb m nf j).getD sampleBundle))[i] := by
        rw [List.get_eq_getElem]
        congr 1
        rw [hred, hmap]
      rw [heq, List.getElem_map, List.getElem_range, hf]
      rfl
    rw [hget]
    exact ⟨h1, h2, h3⟩

set_option maxRecDepth 100000 in
/-- Claim C7, witness: the theorem applied to a 12-byte payload and
maximum fragment size 10, yielding 3 fragments. -/
theorem spec2proof_c7_witness :
    maxPayloadPerFragment fragSrc 10 = max (10 - headerOverhead fragSrc) (10 / 2) ∧
    (fragmentBundle fragSrc 10).length = 3 := by
  have h := spec2proof_c7 fragSrc (payloadBlockMk [0, 1, 2, 3, 4, 5, 6, 7, 8, 9, 10, 11]) 10
    (by decide) (by decide) (by decide)
    (by rw [bundleToCbor_length]; omega) (by decide) (by decide)
  refine ⟨h.1, ?_⟩
  rw [h.2.1]
  decide

theorem sortInsert_ne_nil (f : Bundle) (l : List Bundle) :
    sortInsertByOffset f l ≠ [] := by
  cases l with
  | nil => simp [sortInsertByOffset]
  | cons g rest =>
      simp only [sortInsertByOffset]
      split_ifs <;> simp

theorem sortByOffset_ne_nil (frags : List Bundle) (h : frags ≠ []) :
    sortByOffset frags ≠ [] := by
  cases frags with
  | nil => exact absurd rfl h
  | cons x xs => exact sortInsert_ne_nil x _

theorem tryReassemble_isSome (info : FragmentInfo)
    (hc : info.complete = false) (covered : Nat)
    (hw : coveredWalk 0 (sortByOffset info.fragments) = some covered)
    (hge : info.totalLength ≤ covered)
    (hne : info.fragments ≠ []) :
    ((tryReassemble info).2).isSome = true := by
  obtain ⟨y, ys, hs⟩ := List.exists_cons_of_ne_nil (sortByOffset_ne_nil _ hne)
  have hw2 : coveredWalk 0 (y :: ys) = some covered := by rw [← hs]; exact hw
  simp only [tryReassemble, hc, Bool.false_eq_true, if_false, hs, hw2]
  rw [if_neg (by simp; omega)]
  simp

/-- Claim C9: an arriving fragment whose offset is already recorded in its
fragment set is rejected by `AddFragment` with the map left unchanged; and
delivering a still-missing fragment that (together with the recorded ones)
covers the whole ADU without gaps completes reassembly, returning a
reassembled bundle. -/
theorem spec2proof_c9 :
    (∀ (m : FragmentSetMap) (frag : Bundle) (info : FragmentInfo),
       frag.primaryBlock.isFragment = true →
       fragLookup m (getOriginalBundleId frag) = some info →
       (∃ f ∈ info.fragments,
          f.primaryBlock.fragmentOffset = frag.primaryBlock.fragmentOffset) →
       addFragment m frag = (m, none)) ∧
    (∀ (m : FragmentSetMap) (frag : Bundle) (info : FragmentInfo) (covered : Nat),
       frag.primaryBlock.isFragment = true →
       fragLookup m (getOriginalBundleId frag) = some info →
       info.fragments ≠ [] →
       info.complete = false →
       (∀ f ∈ info.fragments,
          f.primaryBlock.fragmentOffset ≠ frag.primaryBlock.fragmentOffset) →
       coveredWalk 0 (sortByOffset (info.fragments ++ [frag])) = some covered →
       info.totalLength ≤ covered →
       ((addFragment m frag).2).isSome = true) := by
  constructor
  · intro m frag info hfrag hlook hdup
    have hne : info.fragments.isEmpty = false := by
      obtain ⟨f, hf, _⟩ := hdup
      cases hl : info.fragments with
      | nil => rw [hl] at hf; simp at hf
      | cons a l => simp [List.isEmpty]
    have hany : (info.fragments.any
        (fun f => f.primaryBlock.fragmentOffset == frag.primaryBlock.fragmentOffset)) = true := by
      obtain ⟨f, hf, he⟩ := hdup
      exact List.any_eq_true.mpr ⟨f, hf, by simpa using he⟩
    simp only [addFragment, hfrag, Bool.not_true, Bool.false_eq_true, if_false,
      hlook, Option.getD_some, hne, hany, if_true]
  · intro m frag info covered hfrag hlook hne hc hnodup hw hge
    have hne' : info.fragments.isEmpty = false := by
      cases hl : info.fragments with
      | nil => exact absurd hl hne
      | cons a l => simp [List.isEmpty]
    have hany : (info.fragments.any
        (fun f => f.primaryBlock.fragmentOffset == frag.primaryBlock.fragmentOffset)) = false := by
      rw [List.any_eq_false]
      intro f hf
      simpa using hnodup f hf
    have hts := tryReassemble_isSome { info with fragments := info.fragments ++ [frag] }
      (by simpa using hc) covered (by simpa using hw) (by simpa using hge)
      (by simp)
    simp only [addFragment, hfrag, Bool.not_true, Bool.false_eq_true, if_false,
      hlook, Option.getD_some, hne', hany]
    simpa using hts

/-- Claim C9, witness: delivering the offset-0 fragment a second time is
rejected with the accumulator unchanged; delivering the missing offset-2
fragment completes reassembly. -/
theorem spec2proof_c9_witness :
    addFragment c9State frag0 = (c9State, none) ∧
    ((addFragment c9State frag1).2).isSome = true := by
  constructor
  · exact spec2proof_c9.1 c9State frag0 c9Info (by decide) (by decide)
      ⟨frag0, by decide, by decide⟩
  · exact spec2proof_c9.2 c9State frag1 c9Info 4 (by decide) (by decide) (by decide)
      (by decide) (by decide) (by decide) (by decide)

theorem find?_append_of_none {α : Type} (l : List α) (p : α → Bool) (x : α)
    (h : l.find? p = none) (hx : p x = true) : (l ++ [x]).find? p = some x := by
  induction l with
  | nil => simp [List.find?, hx]
  | cons y ys ih =>
      have hy : p y = false := by
        by_contra hc
        simp only [Bool.not_eq_false] at hc
        simp [List.find?_cons_of_pos, hc] at h
      have h' : ys.find? p = none := by
        simpa [List.find?_cons, hy] using h
      simpa [List.find?_cons, hy] using ih h'

theorem setPreviousNode_blockType (blk : CanonicalBlock) (e : EndpointID) :
    (setPreviousNode blk e).blockType = blk.blockType := rfl

theorem setFirstPrevNode_find (blocks : List CanonicalBlock) (localID : EndpointID)
    (h : (blocks.find? (fun blk => blk.blockType == previousNodeBlockType)).isSome = true) :
    ∃ pb, (setFirstPrevNodeData blocks localID).find?
        (fun blk => blk.blockType == previousNodeBlockType) = some pb ∧
      pb.data = eidToCbor localID := by
  induction blocks with
  | nil => simp [List.find?] at h
  | cons x xs ih =>
      by_cases hx : (x.blockType == previousNodeBlockType) = true
      · refine ⟨setPreviousNode x localID, ?_, rfl⟩
        simp only [setFirstPrevNodeData, hx, if_true]
        exact List.find?_cons_of_pos _ (by simpa [setPreviousNode_blockType] using hx)
      · have hxf : (x.blockType == previousNodeBlockType) = false := by
          simpa using hx
        have h' : (xs.find? (fun blk => blk.blockType == previousNodeBlockType)).isSome
            = true := by
          simpa [List.find?_cons, hxf] using h
        obtain ⟨pb, hf, hd⟩ := ih h'
        refine ⟨pb, ?_, hd⟩
        simp only [setFirstPrevNodeData, hxf, Bool.false_eq_true, if_false]
        simpa [List.find?_cons, hxf] using hf

theorem setFirstPrevNode_filter (blocks : List CanonicalBlock) (localID : EndpointID) :
    (setFirstPrevNodeData blocks localID).filter
        (fun blk => !(blk.blockType == previousNodeBlockType)) =
      blocks.filter (fun blk => !(blk.blockType == previousNodeBlockType)) := by
  induction blocks with
  | nil => rfl
  | cons x xs ih =>
      by_cases hx : (x.blockType == previousNodeBlockType) = true
      · simp only [setFirstPrevNodeData, hx, if_true]
        rw [List.filter_cons, List.filter_cons]
        simp [setPreviousNode_blockType, hx]
      · have hxf : (x.blockType == previousNodeBlockType) = false := by simpa using hx
        simp only [setFirstPrevNodeData, hxf, Bool.false_eq_true, if_false]
        rw [List.filter_cons, List.filter_cons]
        simp [hxf, ih]

theorem mutatePrevNode_spec (b : Bundle) (localID : EndpointID)
    (hcls : ∀ blk ∈ b.canonicalBlocks, blk.blockType = previousNodeBlockType →
      blk.cls = BlockClass.prevNode) :
    (∃ pb, bundleGetBlockByType (mutatePrevNode localID b) previousNodeBlockType
        = some pb ∧ pb.data = eidToCbor localID) ∧
    (mutatePrevNode localID b).canonicalBlocks.filter
        (fun blk => !(blk.blockType == previousNodeBlockType)) =
      b.canonicalBlocks.filter (fun blk => !(blk.blockType == previousNodeBlockType)) := by
  unfold mutatePrevNode
  cases hfind : bundleGetBlockByType b previousNodeBlockType with
  | none =>
      dsimp only
      have hnum : (previousNodeBlockMk localID).blockNumber = 2 := rfl
      have haddeq : bundleAddBlock b (previousNodeBlockMk localID) =
          { b with canonicalBlocks :=
              b.canonicalBlocks ++ [previousNodeBlockMk localID] } := by
        simp [bundleAddBlock, previousNodeBlockMk, setPreviousNode]
      rw [haddeq]
      constructor
      · refine ⟨previousNodeBlockMk localID, ?_, rfl⟩
        unfold bundleGetBlockByType at hfind ⊢
        exact find?_append_of_none _ _ _ hfind rfl
      · simp only [List.filter_append]
        have hbt2 : (previousNodeBlockMk localID).blockType = previousNodeBlockType := rfl
        simp [hbt2]
  | some blk =>
      dsimp only
      have hmem := List.mem_of_find?_eq_some hfind
      have hbt : blk.blockType = previousNodeBlockType := by
        have := List.find?_some hfind
        simpa using this
      rw [if_pos (hcls blk hmem hbt)]
      constructor
      · apply setFirstPrevNode_find
        unfold bundleGetBlockByType at hfind
        simp [hfind]
      · exact setFirstPrevNode_filter _ _

/-- Claim C10: whenever `RoutingAlgorithm::SendBundle` finds a reachable
sender, the bundle handed to `Send` — and the bundle left behind, whatever
the send result — is the input with its previous-node block stamped with the
local node ID (the block is created when absent); the returned flag is the
sender's result, the mutation is not rolled back on failure, and every block
other than the previous-node block is unchanged.  (The hypothesis `hcls`
records that blocks carrying the previous-node type code are genuine
`PreviousNodeBlock` instances, as every non-fragment code path creates.) -/
theorem spec2proof_c10 (senders : List SenderBehavior) (s : SenderBehavior)
    (localID : EndpointID) (b : Bundle)
    (hreach : senders.find? (fun s => s.reachable) = some s)
    (hcls : ∀ blk ∈ b.canonicalBlocks, blk.blockType = previousNodeBlockType →
      blk.cls = BlockClass.prevNode) :
    sendBundleRun senders localID b =
      ⟨mutatePrevNode localID b, s.sendOk, some (mutatePrevNode localID b)⟩ ∧
    (∃ pb, bundleGetBlockByType (mutatePrevNode localID b) previousNodeBlockType
        = some pb ∧ pb.data = eidToCbor localID) ∧
    (mutatePrevNode localID b).canonicalBlocks.filter
        (fun blk => !(blk.blockType == previousNodeBlockType)) =
      b.canonicalBlocks.filter (fun blk => !(blk.blockType == previousNodeBlockType)) := by
  have hm := mutatePrevNode_spec b localID hcls
  refine ⟨?_, hm.1, hm.2⟩
  unfold sendBundleRun
  rw [hreach]

/-- Claim C10, witness: the theorem applied to a sender list whose first
reachable sender fails to transmit — the previous-node block is present and
stamped even though the send failed. -/
theorem spec2proof_c10_witness :
    sendBundleRun c10Senders eidA sampleBundle =
      ⟨mutatePrevNode eidA sampleBundle, false, some (mutatePrevNode eidA sampleBundle)⟩ ∧
    (∃ pb, bundleGetBlockByType (mutatePrevNode eidA sampleBundle) previousNodeBlockType
        = some pb ∧ pb.data = eidToCbor eidA) ∧
    (mutatePrevNode eidA sampleBundle).canonicalBlocks.filter
        (fun blk => !(blk.blockType == previousNodeBlockType)) =
      sampleBundle.canonicalBlocks.filter
        (fun blk => !(blk.blockType == previousNodeBlockType)) :=
  spec2proof_c10 c10Senders ⟨true, false⟩ eidA sampleBundle (by decide) (by decide)

theorem sentTo_addSentNode (d : BundleDescriptor) (node p : EndpointID)
    (h : descSentTo (descAddSentNode d node) p = true) :
    descSentTo d p = true ∨ eidEq node p = true := by
  unfold descAddSentNode at h
  by_cases hs : descSentTo d node = true
  · rw [if_pos hs] at h
    exact Or.inl h
  · rw [if_neg hs] at h
    unfold descSentTo at h
    simp only [List.any_append, List.any_cons, List.any_nil, Bool.or_false,
      Bool.or_eq_true] at h
    rcases h with h | h
    · exact Or.inl h
    · exact Or.inr h

theorem mem_alistModify {α : Type} (m : List (BundleID × α)) (id : BundleID)
    (f : α → α) (pair : BundleID × α) (h : pair ∈ alistModify m id f) :
    ∃ q ∈ m, pair.1 = q.1 ∧
      (pair.2 = q.2 ∨ (bidEq q.1 id = true ∧ pair.2 = f q.2)) := by
  unfold alistModify at h
  obtain ⟨q, hq, he⟩ := List.mem_map.mp h
  by_cases hc : bidEq q.1 id = true
  · rw [if_pos hc] at he
    exact ⟨q, hq, by rw [← he], Or.inr ⟨hc, by rw [← he]⟩⟩
  · rw [if_neg hc] at he
    exact ⟨q, hq, by rw [← he], Or.inl (by rw [← he])⟩

theorem mem_updateBundleDescriptor (m : DescriptorMap) (b : Bundle)
    (pair : BundleID × BundleDescriptor) (h : pair ∈ updateBundleDescriptor m b) :
    pair ∈ m ∨
    pair = (bundleGetId b,
      ⟨bundleGetId b, b.primaryBlock.destinationEID, calculateExpirationTime b, []⟩) := by
  unfold updateBundleDescriptor at h
  by_cases hl : (descLookup m (bundleGetId b)).isSome = true
  · rw [if_pos hl] at h
    exact Or.inl h
  · rw [if_neg hl] at h
    rcases List.mem_append.mp h with h2 | h2
    · exact Or.inl h2
    · exact Or.inr (List.mem_singleton.mp h2)

theorem routingStep_sent (m : DescriptorMap) (e : RoutingEvent)
    (pair : BundleID × BundleDescriptor) (p : EndpointID)
    (hmem : pair ∈ routingStep m e)
    (hsent : descSentTo pair.2 p = true) :
    (∃ q ∈ m, q.1 = pair.1 ∧ descSentTo q.2 p = true) ∨
    (eventIsSuccessfulSend pair.1 p e || eventIsNotifyFrom pair.1 p e) = true := by
  cases e with
  | notifyNew b source pushOk =>
      cases pushOk with
      | false =>
          simp only [routingStep, Bool.not_false, if_true] at hmem
          exact Or.inl ⟨pair, hmem, rfl, hsent⟩
      | true =>
          simp only [routingStep, Bool.not_true, Bool.false_eq_true, if_false] at hmem
          obtain ⟨q, hq, hkey, hval⟩ := mem_alistModify _ _ _ _ hmem
          rcases mem_updateBundleDescriptor m b q hq with hqm | hqfresh
          · rcases hval with hval | ⟨hqid, hval⟩
            · exact Or.inl ⟨q, hqm, hkey.symm, by rw [← hval]; exact hsent⟩
            · rw [hval] at hsent
              rcases sentTo_addSentNode _ _ _ hsent with h2 | h2
              · exact Or.inl ⟨q, hqm, hkey.symm, h2⟩
              · refine Or.inr ?_
                rw [Bool.or_eq_true]
                refine Or.inr ?_
                simp only [eventIsNotifyFrom, Bool.and_eq_true]
                exact ⟨⟨by rw [hkey]; exact hqid, h2⟩, trivial⟩
          · rcases hval with hval | ⟨hqid, hval⟩
            · rw [hval] at hsent
              rw [hqfresh] at hsent
              simp [descSentTo] at hsent
            · rw [hval] at hsent
              rcases sentTo_addSentNode _ _ _ hsent with h2 | h2
              · rw [hqfresh] at h2
                simp [descSentTo] at h2
              · refine Or.inr ?_
                rw [Bool.or_eq_true]
                refine Or.inr ?_
                simp only [eventIsNotifyFrom, Bool.and_eq_true]
                exact ⟨⟨by rw [hkey]; exact hqid, h2⟩, trivial⟩
  | send b receiver reachable sendOk =>
      by_cases hrs : (reachable && sendOk) = true
      · simp only [routingStep, hrs, if_true] at hmem
        obtain ⟨q, hq, hkey, hval⟩ := mem_alistModify _ _ _ _ hmem
        rcases hval with hval | ⟨hqid, hval⟩
        · exact Or.inl ⟨q, hq, hkey.symm, by rw [← hval]; exact hsent⟩
        · rw [hval] at hsent
          rcases sentTo_addSentNode _ _ _ hsent with h2 | h2
          · exact Or.inl ⟨q, hq, hkey.symm, h2⟩
          · refine Or.inr ?_
            rw [Bool.or_eq_true]
            refine Or.inl ?_
            simp only [eventIsSuccessfulSend, Bool.and_eq_true]
            rw [Bool.and_eq_true] at hrs
            obtain ⟨hr, hk⟩ := hrs
            exact ⟨⟨⟨by rw [hkey]; exact hqid, h2⟩, hr⟩, hk⟩
      · simp only [routingStep, hrs, if_false] at hmem
        exact Or.inl ⟨pair, hmem, rfl, hsent⟩

theorem routingFold_sent (tr : List RoutingEvent) (m : DescriptorMap)
    (pair : BundleID × BundleDescriptor) (p : EndpointID)
    (hmem : pair ∈ tr.foldl routingStep m)
    (hsent : descSentTo pair.2 p = true) :
    (∃ q ∈ m, q.1 = pair.1 ∧ descSentTo q.2 p = true) ∨
    (∃ e ∈ tr, (eventIsSuccessfulSend pair.1 p e || eventIsNotifyFrom pair.1 p e)
      = true) := by
  induction tr generalizing m with
  | nil => exact Or.inl ⟨pair, by simpa using hmem, rfl, hsent⟩
  | cons e rest ih =>
      rw [List.foldl_cons] at hmem
      rcases ih (routingStep m e) hmem with h | h
      · obtain ⟨q, hq, hkey, hqs⟩ := h
        rcases routingStep_sent m e q p hq hqs with h2 | h2
        · obtain ⟨r, hr, hrkey, hrs⟩ := h2
          exact Or.inl ⟨r, hr, by rw [hrkey, hkey], hrs⟩
        · refine Or.inr ⟨e, List.mem_cons_self e rest, ?_⟩
          rw [hkey] at h2
          exact h2
      · obtain ⟨e2, he2, hp⟩ := h
        exact Or.inr ⟨e2, List.mem_cons_of_mem e he2, hp⟩

/-- Claim C8 (amended): in every reachable routing-engine state, every peer
`p` in a descriptor's sent-to set is accounted for by the trace: either an
earlier successful send of that bundle to `p` was recorded, or `p` was the
source peer of a successful `NotifyNewBundle` for that bundle (which marks
the source as already-sent-to without any send). -/
theorem spec2proof_c8 (tr : List RoutingEvent)
    (pair : BundleID × BundleDescriptor) (p : EndpointID)
    (hmem : pair ∈ routingRun tr) (hsent : descSentTo pair.2 p = true) :
    ∃ e ∈ tr, (eventIsSuccessfulSend pair.1 p e || eventIsNotifyFrom pair.1 p e)
      = true := by
  rcases routingFold_sent tr [] pair p hmem hsent with h | h
  · obtain ⟨q, hq, _, _⟩ := h
    simp at hq
  · exact h

/-- Claim C8, witness: the amended invariant applied to the concrete
one-event trace, whose descriptor lists the notify source peer. -/
theorem spec2proof_c8_witness :
    ∃ e ∈ c8Trace,
      (eventIsSuccessfulSend c8Pair.1 eidB e || eventIsNotifyFrom c8Pair.1 eidB e)
        = true :=
  spec2proof_c8 c8Trace c8Pair eidB (by decide) (by decide)

/-- Claim C8, counterexample: after a single `NotifyNewBundle` from peer
`dtn://b/` the descriptor's sent-to set contains that peer although the
trace records no successful send, refuting the claim as stated. -/
theorem spec2proof_c8_counterexample :
    ¬ (∀ (tr : List RoutingEvent) (pair : BundleID × BundleDescriptor)
         (p : EndpointID), pair ∈ routingRun tr → descSentTo pair.2 p = true →
         ∃ e ∈ tr, eventIsSuccessfulSend pair.1 p e = true) := by
  intro h
  obtain ⟨e, he, hp⟩ := h c8Trace c8Pair eidB (by decide) (by decide)
  have he2 : e = RoutingEvent.notifyNew sampleBundle eidB true := by
    simpa [c8Trace] using he
  rw [he2] at hp
  exact absurd hp (by decide)

end Dtn7
